import Mathlib

/-!
Verification of the `type-test` crate: a small Hindley–Milner style type
inference engine (`src/type-test/src/ty.rs` and `src/type-test/src/expr.rs`).

Types, unification with occurs check, and the expression-level inference
are embedded from the source.  The crate's `data.rs`, `error.rs` and
`builder.rs` are not in the tree, so the substitution map, the context and
the error enumeration are modelled from the specification (each such
definition is marked).  Unification is embedded with an explicit fuel
parameter (`unifyN`); termination is proved as a theorem stating that some
fuel always suffices.
-/

namespace TypeTest

/-- `Ty` from `ty.rs`: named (nominal) types, unification variables, and
function (arrow) types.  `Func from to` is written positionally. -/
inductive Ty where
  | Named (name : String)
  | Variable (name : String)
  | Func (fromTy toTy : Ty)
deriving DecidableEq, Repr

/-- Modelled from the spec: the error kinds of the missing `error.rs`
(§7 of the design): unbound variable, unification mismatch, occurs-check
failure, and the internal `NotAFunction` narrowing failure.  The panics in
`ty.rs` (`"Type mismatch"`, `"Type contains self reference"`) are embedded
as the corresponding typed failures. -/
inductive TyError where
  | UnboundVariable (name : String)
  | TypeMismatch (expected actual : Ty)
  | InfiniteType (name : String)
  | NotAFunction
deriving DecidableEq, Repr

/-- Modelled from the spec: `Substitutions` of the missing `data.rs`, a
finite map from type-variable name to `Ty`, embedded as an association
list with unique keys maintained by `insert`. -/
abbrev Subst := List (String × Ty)

/-- Map lookup on a substitution (HashMap `get`). -/
def Subst.find? (s : Subst) (name : String) : Option Ty :=
  (List.find? (fun p => p.1 == name) s).map Prod.snd

/-- Map insert with overwrite on key collision (HashMap `insert`). -/
def Subst.insert (s : Subst) (name : String) (ty : Ty) : Subst :=
  s.filter (fun p => p.1 ≠ name) ++ [(name, ty)]

/-- `Ty::apply_subs` from `ty.rs`: `Named` passes through, a `Variable`
resolves one level via the map (or stays itself), `Func` recurses. -/
def Ty.apply_subs : Ty → Subst → Ty
  | Ty.Named n, _ => Ty.Named n
  | Ty.Variable name, subs => (subs.find? name).getD (Ty.Variable name)
  | Ty.Func f t, subs => Ty.Func (f.apply_subs subs) (t.apply_subs subs)

/-- Modelled from the spec (§3): composition `A += B`: every type `A` maps
to first has `B` applied to it, then every binding of `B` is inserted,
overwriting on key collision. -/
def Subst.compose (a b : Subst) : Subst :=
  b.foldl (fun acc p => acc.insert p.1 p.2)
    (a.map (fun p => (p.1, p.2.apply_subs b)))

/-- `Ty::contains` from `ty.rs`: structural occurs search through `Func`. -/
def Ty.contains : Ty → String → Bool
  | Ty.Named _, _ => false
  | Ty.Variable varName, name => varName == name
  | Ty.Func f t, name => f.contains name || t.contains name

/-- `Ty::var_bind` from `ty.rs`: binding a variable to itself is a no-op;
a type containing the variable fails the occurs check; otherwise a
singleton substitution is produced. -/
def Ty.var_bind (self : Ty) (name : String) : Except TyError Subst :=
  if self = Ty.Variable name then
    Except.ok []
  else if self.contains name then
    Except.error (TyError.InfiniteType name)
  else
    Except.ok [(name, self)]

/-- `Ty::unify` from `ty.rs`, with an explicit fuel parameter: `none`
means the fuel ran out (termination is proved separately).  Equal named
types unify with the empty substitution; a variable on either side is
bound via `var_bind`; two arrows unify the from-sides first, apply that
substitution to both to-sides, unify those and compose; every other
pairing is a mismatch. -/
def unifyN : Nat → Ty → Ty → Option (Except TyError Subst)
  | 0, _, _ => none
  | k + 1, x, y =>
    match x, y with
    | Ty.Named a, Ty.Named b =>
      if a = b then some (Except.ok [])
      else some (Except.error (TyError.TypeMismatch (Ty.Named a) (Ty.Named b)))
    | Ty.Variable a, y => some (y.var_bind a)
    | x, Ty.Variable b => some (x.var_bind b)
    | Ty.Func xFrom xTo, Ty.Func yFrom yTo =>
      match unifyN k xFrom yFrom with
      | none => none
      | some (Except.error e) => some (Except.error e)
      | some (Except.ok s1) =>
        match unifyN k (xTo.apply_subs s1) (yTo.apply_subs s1) with
        | none => none
        | some (Except.error e) => some (Except.error e)
        | some (Except.ok s2) => some (Except.ok (s1.compose s2))
    | x, y => some (Except.error (TyError.TypeMismatch x y))

/-- Modelled from the spec (§4.1): the `try_into_func` narrowing, failing
with `NotAFunction` on a non-arrow type. -/
def Ty.try_into_func : Ty → Except TyError (Ty × Ty)
  | Ty.Func f t => Except.ok (f, t)
  | _ => Except.error TyError.NotAFunction

/-- `Expr` from `expr.rs`; the boxed `FuncExpr`, `CallExpr`, `IfExpr` and
`LetExpr` structs are flattened into constructor arguments. -/
inductive Expr where
  | Number (n : Int)
  | Variable (name : String)
  | Func (param : String) (body : Expr)
  | Call (func arg : Expr)
  | If (condition trueBranch falseBranch : Expr)
  | Let (name : String) (expr body : Expr)
deriving DecidableEq, Repr

/-- Modelled from the spec (§3, §4.2): the `Context` of the missing
`data.rs`: a map from expression-variable name to type, plus the
monotonically increasing counter used to mint fresh type variables.
`with`/`substitute` return new contexts (the receiver is unchanged), so
the counter is copied by value into the new context. -/
structure Context where
  vars : List (String × Ty)
  count : Nat
deriving DecidableEq, Repr

/-- The name minted for the `n`-th fresh type variable of a run. -/
def tyVarName (n : Nat) : String := "t" ++ toString n

/-- Modelled from the spec (§4.2 `lookup`): fails with `UnboundVariable`
when the name is absent. -/
def Context.get (ctx : Context) (name : String) : Except TyError Ty :=
  match ctx.vars.find? (fun p => p.1 == name) with
  | some p => Except.ok p.2
  | none => Except.error (TyError.UnboundVariable name)

/-- Modelled from the spec (§4.2 `with`): a new context in which `name`
maps to `ty`, shadowing any prior binding. -/
def Context.with' (ctx : Context) (name : String) (ty : Ty) : Context :=
  ⟨(name, ty) :: ctx.vars, ctx.count⟩

/-- Modelled from the spec (§4.2 `substitute`): a new context in which
every bound type has the substitution applied. -/
def Context.substitute (ctx : Context) (subs : Subst) : Context :=
  ⟨ctx.vars.map (fun p => (p.1, p.2.apply_subs subs)), ctx.count⟩

/-- Modelled from the spec (§4.2 `fresh_variable`): mints
`Variable (tyVarName count)` and bumps the receiver's counter. -/
def Context.new_ty_variable (ctx : Context) : Ty × Context :=
  (Ty.Variable (tyVarName ctx.count), ⟨ctx.vars, ctx.count + 1⟩)

/-- `Expr::infer` and the four struct `infer`s from `expr.rs`.  The fuel
`k` is handed to every `unifyN` call; the recursion over expressions is
structural.  Besides the Rust return value `Result<(Ty, Substitutions)>`
the embedding returns the final state of the *caller's* context (the Rust
functions take `&mut Context`; sub-inferences that receive a freshly
built context — `ctx.with(..)`, `ctx.substitute(..)` — mutate only that
temporary, so their counter bumps are not propagated, exactly as in the
source) and, as a ghost output, the list of every fresh type-variable
name minted anywhere during the call, including inside those discarded
temporaries. -/
def inferN (k : Nat) :
    Expr → Context → Option (Except TyError (Ty × Subst) × Context × List String)
  | Expr.Number _, ctx =>
    some (Except.ok (Ty.Named "Number", []), ctx, [])
  | Expr.Variable name, ctx =>
    match ctx.get name with
    | Except.ok t => some (Except.ok (t, []), ctx, [])
    | Except.error e => some (Except.error e, ctx, [])
  | Expr.Func param body, ctx =>
    let pc := ctx.new_ty_variable
    match inferN k body ((pc.2.with' param pc.1)) with
    | none => none
    | some (Except.error e, _, log) =>
      some (Except.error e, pc.2, tyVarName ctx.count :: log)
    | some (Except.ok (bodyTy, subs), _, log) =>
      some (Except.ok (Ty.Func (pc.1.apply_subs subs) bodyTy, subs), pc.2,
        tyVarName ctx.count :: log)
  | Expr.Call func arg, ctx =>
    match inferN k func ctx with
    | none => none
    | some (Except.error e, ctx1, log1) => some (Except.error e, ctx1, log1)
    | some (Except.ok (funcTy, subs), ctx1, log1) =>
      match inferN k arg (ctx1.substitute subs) with
      | none => none
      | some (Except.error e, _, log2) =>
        some (Except.error e, ctx1, log1 ++ log2)
      | some (Except.ok (argTy, newSubs), _, log2) =>
        let nv := ctx1.new_ty_variable
        let mlog := log1 ++ log2 ++ [tyVarName ctx1.count]
        let subsA := subs.compose newSubs
        match unifyN k (Ty.Func argTy nv.1) funcTy with
        | none => none
        | some (Except.error e) => some (Except.error e, nv.2, mlog)
        | some (Except.ok newSubs2) =>
          match (funcTy.apply_subs newSubs2).try_into_func with
          | Except.error e => some (Except.error e, nv.2, mlog)
          | Except.ok (fromTy, toTy) =>
            let subsB := subsA.compose newSubs2
            match unifyN k (fromTy.apply_subs subsB) argTy with
            | none => none
            | some (Except.error e) => some (Except.error e, nv.2, mlog)
            | some (Except.ok s3) =>
              let subsC := subsB.compose s3
              some (Except.ok (toTy.apply_subs subsC, subsC), nv.2, mlog)
  | Expr.If condition trueBranch falseBranch, ctx =>
    match inferN k condition ctx with
    | none => none
    | some (Except.error e, ctx1, log1) => some (Except.error e, ctx1, log1)
    | some (Except.ok (conditionTy, conditionSubs), ctx1, log1) =>
      match unifyN k conditionTy (Ty.Named "Bool") with
      | none => none
      | some (Except.error e) => some (Except.error e, ctx1, log1)
      | some (Except.ok subs0) =>
        let conditionSubs1 := conditionSubs.compose subs0
        match inferN k trueBranch (ctx1.substitute conditionSubs1) with
        | none => none
        | some (Except.error e, _, log2) =>
          some (Except.error e, ctx1, log1 ++ log2)
        | some (Except.ok (tbTy, newSubs), ctx2, log2) =>
          let subsA := subs0.compose newSubs
          match inferN k falseBranch (ctx2.substitute newSubs) with
          | none => none
          | some (Except.error e, _, log3) =>
            some (Except.error e, ctx1, log1 ++ log2 ++ log3)
          | some (Except.ok (fbTy, newSubs2), _, log3) =>
            let subsB := subsA.compose newSubs2
            let tbTy1 := tbTy.apply_subs subsB
            let fbTy1 := fbTy.apply_subs subsB
            match unifyN k tbTy1 fbTy1 with
            | none => none
            | some (Except.error e) =>
              some (Except.error e, ctx1, log1 ++ log2 ++ log3)
            | some (Except.ok ns) =>
              some (Except.ok (tbTy1.apply_subs ns, subsB.compose ns), ctx1,
                log1 ++ log2 ++ log3)
  | Expr.Let name expr body, ctx =>
    match inferN k expr ctx with
    | none => none
    | some (Except.error e, ctx1, log1) => some (Except.error e, ctx1, log1)
    | some (Except.ok (exprTy, subs), ctx1, log1) =>
      match inferN k body ((ctx1.substitute subs).with' name exprTy) with
      | none => none
      | some (Except.error e, _, log2) =>
        some (Except.error e, ctx1, log1 ++ log2)
      | some (Except.ok (bodyTy, newSubs), _, log2) =>
        some (Except.ok (bodyTy, subs.compose newSubs), ctx1, log1 ++ log2)

/-! ### Measures and map lemmas used by the unification metatheory -/

/-- The set of variable names occurring in a type. -/
def Ty.tyVars : Ty → Finset String
  | Ty.Named _ => ∅
  | Ty.Variable n => {n}
  | Ty.Func f t => f.tyVars ∪ t.tyVars

/-- Structural size of a type. -/
def Ty.size : Ty → Nat
  | Ty.Named _ => 1
  | Ty.Variable _ => 1
  | Ty.Func f t => f.size + t.size + 1

/-- The keys of a substitution. -/
def sdom (s : Subst) : Finset String := (s.map Prod.fst).toFinset

/-- The variables occurring in the range of a substitution. -/
def srvars (s : Subst) : Finset String :=
  s.foldr (fun p acc => p.2.tyVars ∪ acc) ∅

/-- Keys are pairwise distinct. -/
def NodupKeys (s : Subst) : Prop := (s.map Prod.fst).Nodup

theorem Ty.size_pos (t : Ty) : 0 < t.size := by
  cases t <;> simp [Ty.size]

theorem Ty.contains_iff (t : Ty) (v : String) :
    t.contains v = true ↔ v ∈ t.tyVars := by
  induction t with
  | Named n => simp [Ty.contains, Ty.tyVars]
  | Variable n =>
    simp [Ty.contains, Ty.tyVars]
    exact eq_comm
  | Func f t ihf iht =>
    simp [Ty.contains, Ty.tyVars, ihf, iht]

theorem mem_sdom {s : Subst} {v : String} :
    v ∈ sdom s ↔ ∃ t, (v, t) ∈ s := by
  simp [sdom]

theorem sdom_cons (p : String × Ty) (s : Subst) :
    sdom (p :: s) = insert p.1 (sdom s) := by
  simp [sdom]

theorem srvars_cons (p : String × Ty) (s : Subst) :
    srvars (p :: s) = p.2.tyVars ∪ srvars s := rfl

theorem mem_srvars {s : Subst} {v : String} :
    v ∈ srvars s ↔ ∃ p ∈ s, v ∈ Ty.tyVars p.2 := by
  induction s with
  | nil => simp [srvars]
  | cons p s ih =>
    rw [srvars_cons]
    simp [ih]

theorem find?_cons (p : String × Ty) (s : Subst) (v : String) :
    Subst.find? (p :: s) v = if p.1 = v then some p.2 else Subst.find? s v := by
  unfold Subst.find?
  by_cases h : p.1 = v
  · rw [List.find?_cons_of_pos _ (by simpa using h)]
    simp [h]
  · rw [List.find?_cons_of_neg _ (by simpa using h)]
    simp [h]

theorem find?_eq_none_iff {s : Subst} {v : String} :
    s.find? v = none ↔ v ∉ sdom s := by
  induction s with
  | nil => simp [Subst.find?, sdom]
  | cons p s ih =>
    rw [find?_cons, sdom_cons]
    by_cases h : p.1 = v
    · simp [h]
    · have h' : ¬ v = p.1 := fun hh => h hh.symm
      simp [h, h', ih]

theorem find?_some_mem {s : Subst} {v : String} {t : Ty}
    (h : s.find? v = some t) : (v, t) ∈ s := by
  induction s with
  | nil => simp [Subst.find?] at h
  | cons p s ih =>
    rw [find?_cons] at h
    by_cases hp : p.1 = v
    · simp [hp] at h
      cases p
      simp_all
    · simp [hp] at h
      exact List.mem_cons_of_mem _ (ih h)

theorem apply_subs_nil (t : Ty) : t.apply_subs [] = t := by
  induction t with
  | Named n => rfl
  | Variable n => rfl
  | Func f t ihf iht => simp [Ty.apply_subs, ihf, iht]

theorem tyVars_apply_subs (t : Ty) (s : Subst) :
    (t.apply_subs s).tyVars ⊆ (t.tyVars \ sdom s) ∪ srvars s := by
  induction t with
  | Named n => simp [Ty.apply_subs, Ty.tyVars]
  | Variable v =>
    cases h : s.find? v with
    | none =>
      have hv : v ∉ sdom s := find?_eq_none_iff.mp h
      rw [show (Ty.Variable v).apply_subs s = Ty.Variable v from by
        simp [Ty.apply_subs, h]]
      intro w hw
      simp [Ty.tyVars] at hw
      subst hw
      exact Finset.mem_union_left _ (Finset.mem_sdiff.mpr ⟨by simp [Ty.tyVars], hv⟩)
    | some u =>
      rw [show (Ty.Variable v).apply_subs s = u from by simp [Ty.apply_subs, h]]
      intro w hw
      exact Finset.mem_union_right _ (mem_srvars.mpr ⟨(v, u), find?_some_mem h, hw⟩)
  | Func f t ihf iht =>
    rw [show (Ty.Func f t).apply_subs s
        = Ty.Func (f.apply_subs s) (t.apply_subs s) from rfl]
    rw [show (Ty.Func (f.apply_subs s) (t.apply_subs s)).tyVars
        = (f.apply_subs s).tyVars ∪ (t.apply_subs s).tyVars from rfl]
    rw [show (Ty.Func f t).tyVars = f.tyVars ∪ t.tyVars from rfl]
    apply Finset.union_subset
    · exact ihf.trans (Finset.union_subset_union
        (Finset.sdiff_subset_sdiff Finset.subset_union_left (le_refl _)) (le_refl _))
    · exact iht.trans (Finset.union_subset_union
        (Finset.sdiff_subset_sdiff Finset.subset_union_right (le_refl _)) (le_refl _))

theorem apply_subs_of_disjoint {t : Ty} {s : Subst}
    (h : Disjoint (sdom s) t.tyVars) : t.apply_subs s = t := by
  induction t with
  | Named n => rfl
  | Variable v =>
    have hv : v ∉ sdom s := by
      intro hm
      exact (Finset.disjoint_left.mp h hm) (by simp [Ty.tyVars])
    simp [Ty.apply_subs, find?_eq_none_iff.mpr hv]
  | Func f t ihf iht =>
    rw [show (Ty.Func f t).tyVars = f.tyVars ∪ t.tyVars from rfl,
      Finset.disjoint_union_right] at h
    simp [Ty.apply_subs, ihf h.1, iht h.2]

theorem find?_some_mem_sdom {s : Subst} {v : String} {t : Ty}
    (h : s.find? v = some t) : v ∈ sdom s :=
  mem_sdom.mpr ⟨t, find?_some_mem h⟩

theorem insert_cons_of_ne {p : String × Ty} {s : Subst} {k : String} {v : Ty}
    (hp : p.1 ≠ k) : Subst.insert (p :: s) k v = p :: Subst.insert s k v := by
  simp [Subst.insert, List.filter_cons, hp]

theorem insert_cons_of_eq {p : String × Ty} {s : Subst} {k : String} {v : Ty}
    (hp : p.1 = k) : Subst.insert (p :: s) k v = Subst.insert s k v := by
  simp [Subst.insert, List.filter_cons, hp]

theorem find?_insert (s : Subst) (k : String) (v : Ty) (w : String) :
    (s.insert k v).find? w = if w = k then some v else s.find? w := by
  induction s with
  | nil =>
    rw [show Subst.insert [] k v = [(k, v)] from rfl, find?_cons]
    by_cases h : w = k
    · simp [h]
    · simp [h, Subst.find?]
      exact fun hh => h hh.symm
  | cons p s ih =>
    by_cases hp : p.1 = k
    · rw [insert_cons_of_eq hp, ih, find?_cons]
      by_cases hw : w = k
      · simp [hw]
      · simp [hw, show ¬ p.1 = w from fun hh => hw (hh.symm.trans hp)]
    · rw [insert_cons_of_ne hp, find?_cons, find?_cons]
      by_cases hq : p.1 = w
      · simp [hq, show ¬ w = k from fun hh => hp (hq.trans hh)]
      · simp [hq, ih]

theorem mem_insert {q : String × Ty} {s : Subst} {k : String} {v : Ty}
    (h : q ∈ s.insert k v) : q ∈ s ∨ q = (k, v) := by
  rcases List.mem_append.mp h with h | h
  · exact Or.inl (List.mem_of_mem_filter h)
  · simp at h
    exact Or.inr h

theorem nodupKeys_insert {s : Subst} {k : String} {v : Ty}
    (h : NodupKeys s) : NodupKeys (s.insert k v) := by
  unfold NodupKeys Subst.insert
  rw [List.map_append, List.nodup_append]
  refine ⟨h.sublist ((List.filter_sublist s).map Prod.fst), by simp, ?_⟩
  intro w hw hw2
  simp at hw2
  subst hw2
  rcases List.mem_map.mp hw with ⟨q, hq, hq1⟩
  have hq2 := (List.mem_filter.mp hq).2
  simp at hq2
  exact hq2 hq1

theorem nodupKeys_foldl_insert (b : Subst) (init : Subst)
    (h : NodupKeys init) :
    NodupKeys (b.foldl (fun acc p => acc.insert p.1 p.2) init) := by
  induction b generalizing init with
  | nil => exact h
  | cons p b ih => exact ih _ (nodupKeys_insert h)

theorem mem_foldl_insert {q : String × Ty} (b : Subst) (init : Subst)
    (h : q ∈ b.foldl (fun acc p => acc.insert p.1 p.2) init) :
    q ∈ init ∨ q ∈ b := by
  induction b generalizing init with
  | nil => exact Or.inl h
  | cons p b ih =>
    rcases ih _ h with h' | h'
    · rcases mem_insert h' with h'' | h''
      · exact Or.inl h''
      · right
        rw [h'']
        exact List.mem_cons_self _ _
    · exact Or.inr (List.mem_cons_of_mem _ h')

theorem find?_foldl_insert (b : Subst) (hb : NodupKeys b) (init : Subst)
    (w : String) :
    Subst.find? (b.foldl (fun acc p => acc.insert p.1 p.2) init) w
      = match Subst.find? b w with
        | some u => some u
        | none => Subst.find? init w := by
  induction b generalizing init with
  | nil => rfl
  | cons p b ih =>
    have hb2 := hb
    unfold NodupKeys at hb2
    rw [List.map_cons, List.nodup_cons] at hb2
    obtain ⟨hkeys, hb'⟩ := hb2
    rw [show List.foldl (fun acc p => Subst.insert acc p.1 p.2) init (p :: b)
        = List.foldl (fun acc p => Subst.insert acc p.1 p.2)
            (Subst.insert init p.1 p.2) b from rfl]
    rw [ih hb', find?_cons]
    by_cases hw : p.1 = w
    · have hnone : Subst.find? b w = none := by
        apply find?_eq_none_iff.mpr
        rw [← hw]
        simpa [sdom] using hkeys
      simp [hw, hnone, find?_insert]
    · simp [hw]
      cases Subst.find? b w with
      | some u => rfl
      | none =>
        simp [find?_insert]
        exact fun hh => absurd hh.symm hw

theorem find?_map_apply (a b : Subst) (w : String) :
    Subst.find? (a.map (fun p => (p.1, p.2.apply_subs b))) w
      = (Subst.find? a w).map (fun t => t.apply_subs b) := by
  induction a with
  | nil => rfl
  | cons p a ih =>
    rw [List.map_cons, find?_cons, find?_cons]
    by_cases hp : p.1 = w
    · simp [hp]
    · simp [hp, ih]

theorem find?_compose (a : Subst) {b : Subst} (hb : NodupKeys b) (w : String) :
    Subst.find? (a.compose b) w
      = match Subst.find? b w with
        | some u => some u
        | none => (Subst.find? a w).map (fun t => t.apply_subs b) := by
  unfold Subst.compose
  rw [find?_foldl_insert b hb _ w, find?_map_apply]

theorem mem_compose {q : String × Ty} {a b : Subst}
    (h : q ∈ a.compose b) :
    (∃ t0, (q.1, t0) ∈ a ∧ q.2 = t0.apply_subs b) ∨ q ∈ b := by
  rcases mem_foldl_insert _ _ h with h' | h'
  · rcases List.mem_map.mp h' with ⟨p, hp, hq⟩
    exact Or.inl ⟨p.2, by rw [← hq]; exact hp, by rw [← hq]⟩
  · exact Or.inr h'

theorem sdom_compose {a b : Subst} :
    sdom (a.compose b) ⊆ sdom a ∪ sdom b := by
  intro v hv
  rcases mem_sdom.mp hv with ⟨t, ht⟩
  rcases mem_compose ht with ⟨t0, hm, _⟩ | hm
  · exact Finset.mem_union_left _ (mem_sdom.mpr ⟨t0, hm⟩)
  · exact Finset.mem_union_right _ (mem_sdom.mpr ⟨t, hm⟩)

theorem srvars_compose {a b : Subst} :
    srvars (a.compose b) ⊆ (srvars a \ sdom b) ∪ srvars b := by
  intro v hv
  rcases mem_srvars.mp hv with ⟨q, hq, hvq⟩
  rcases mem_compose hq with ⟨t0, hm, heq⟩ | hm
  · have := tyVars_apply_subs t0 b (heq ▸ hvq)
    rcases Finset.mem_union.mp this with h' | h'
    · rcases Finset.mem_sdiff.mp h' with ⟨h1, h2⟩
      exact Finset.mem_union_left _
        (Finset.mem_sdiff.mpr ⟨mem_srvars.mpr ⟨(q.1, t0), hm, h1⟩, h2⟩)
    · exact Finset.mem_union_right _ h'
  · exact Finset.mem_union_right _ (mem_srvars.mpr ⟨q, hm, hvq⟩)

theorem nodupKeys_compose {a b : Subst} (ha : NodupKeys a) :
    NodupKeys (a.compose b) := by
  apply nodupKeys_foldl_insert
  unfold NodupKeys at ha ⊢
  simpa [List.map_map, Function.comp] using ha

theorem apply_subs_compose {a b : Subst} (hb : NodupKeys b)
    (hdisj : Disjoint (sdom a) (sdom b)) (t : Ty) :
    t.apply_subs (a.compose b) = (t.apply_subs a).apply_subs b := by
  induction t with
  | Named n => rfl
  | Variable v =>
    rw [show (Ty.Variable v).apply_subs (a.compose b)
        = ((a.compose b).find? v).getD (Ty.Variable v) from rfl]
    rw [find?_compose a hb]
    cases hbv : Subst.find? b v with
    | some u =>
      have hva : v ∉ sdom a :=
        Finset.disjoint_right.mp hdisj (find?_some_mem_sdom hbv)
      simp [Ty.apply_subs, find?_eq_none_iff.mpr hva, hbv]
    | none =>
      cases hav : Subst.find? a v with
      | some t0 => simp [Ty.apply_subs, hav]
      | none => simp [Ty.apply_subs, hav, hbv]
  | Func f t ihf iht =>
    simp [Ty.apply_subs, ihf, iht]

/-! ### Unification metatheory -/

/-- `θ` makes `x` and `y` syntactically identical (in one application). -/
def Unifies (θ : Subst) (x y : Ty) : Prop :=
  x.apply_subs θ = y.apply_subs θ

/-- Bookkeeping invariant of the substitutions produced by `unifyN`:
unique keys, domain and range variables inside `V`, and a triangular
(domain-disjoint-from-range) shape. -/
def SInv (s : Subst) (V : Finset String) : Prop :=
  NodupKeys s ∧ sdom s ⊆ V ∧ srvars s ⊆ V ∧ Disjoint (sdom s) (srvars s)

/-- `s` is a most general unifier: every unifier factors through it. -/
def IsMGU (s : Subst) (x y : Ty) : Prop :=
  ∀ θ, Unifies θ x y → ∀ t : Ty, t.apply_subs θ = (t.apply_subs s).apply_subs θ

/-- Everything the master induction carries about a `unifyN` result: a
success is an invariant-respecting most general unifier, a failure means
no unifier exists at all. -/
def UGood (x y : Ty) (r : Except TyError Subst) : Prop :=
  match r with
  | Except.ok s =>
      SInv s (x.tyVars ∪ y.tyVars) ∧ Unifies s x y ∧ IsMGU s x y
  | Except.error _ => ∀ θ, ¬ Unifies θ x y

theorem tyVars_func (a b : Ty) :
    (Ty.Func a b).tyVars = a.tyVars ∪ b.tyVars := rfl

theorem unifies_func_iff {θ : Subst} {a b c d : Ty} :
    Unifies θ (Ty.Func a b) (Ty.Func c d) ↔ Unifies θ a c ∧ Unifies θ b d := by
  simp [Unifies, Ty.apply_subs]

theorem not_unifies_named_func {θ : Subst} {n : String} {a b : Ty} :
    ¬ Unifies θ (Ty.Named n) (Ty.Func a b) := by
  simp [Unifies, Ty.apply_subs]

theorem not_unifies_func_named {θ : Subst} {n : String} {a b : Ty} :
    ¬ Unifies θ (Ty.Func a b) (Ty.Named n) := by
  simp [Unifies, Ty.apply_subs]

theorem unifies_named_iff {θ : Subst} {a b : String} :
    Unifies θ (Ty.Named a) (Ty.Named b) ↔ a = b := by
  simp [Unifies, Ty.apply_subs]

theorem sinv_nil (V : Finset String) : SInv [] V := by
  refine ⟨by simp [NodupKeys], by simp [sdom], by simp [srvars], by simp [sdom]⟩

theorem ugood_ok_nil (x : Ty) : UGood x x (Except.ok []) := by
  refine ⟨sinv_nil _, rfl, ?_⟩
  intro θ _ t
  rw [apply_subs_nil]

theorem ugood_swap {x y : Ty} {r : Except TyError Subst}
    (h : UGood x y r) : UGood y x r := by
  cases r with
  | error e =>
    intro θ hu
    exact h θ hu.symm
  | ok s =>
    obtain ⟨hinv, hu, hmgu⟩ := h
    refine ⟨by rwa [Finset.union_comm], hu.symm, ?_⟩
    intro θ hθ t
    exact hmgu θ hθ.symm t

theorem size_apply_le {v : String} {t : Ty} (h : v ∈ t.tyVars) (θ : Subst) :
    ((Ty.Variable v).apply_subs θ).size ≤ (t.apply_subs θ).size := by
  induction t with
  | Named n => simp [Ty.tyVars] at h
  | Variable w =>
    simp [Ty.tyVars] at h
    subst h
    exact le_refl _
  | Func f g ihf ihg =>
    rw [tyVars_func, Finset.mem_union] at h
    rw [show (Ty.Func f g).apply_subs θ
        = Ty.Func (f.apply_subs θ) (g.apply_subs θ) from rfl]
    rw [show (Ty.Func (f.apply_subs θ) (g.apply_subs θ)).size
        = (f.apply_subs θ).size + (g.apply_subs θ).size + 1 from rfl]
    rcases h with h | h
    · have := ihf h
      omega
    · have := ihg h
      omega

theorem size_apply_lt {v : String} {t : Ty} (h : v ∈ t.tyVars)
    (hne : t ≠ Ty.Variable v) (θ : Subst) :
    ((Ty.Variable v).apply_subs θ).size < (t.apply_subs θ).size := by
  cases t with
  | Named n => simp [Ty.tyVars] at h
  | Variable w =>
    simp [Ty.tyVars] at h
    subst h
    exact absurd rfl hne
  | Func f g =>
    rw [tyVars_func, Finset.mem_union] at h
    rw [show (Ty.Func f g).apply_subs θ
        = Ty.Func (f.apply_subs θ) (g.apply_subs θ) from rfl]
    rw [show (Ty.Func (f.apply_subs θ) (g.apply_subs θ)).size
        = (f.apply_subs θ).size + (g.apply_subs θ).size + 1 from rfl]
    have hf := Ty.size_pos (f.apply_subs θ)
    have hg := Ty.size_pos (g.apply_subs θ)
    rcases h with h | h
    · have := size_apply_le h θ
      omega
    · have := size_apply_le h θ
      omega

theorem no_unifier_occurs {v : String} {t : Ty} (h : v ∈ t.tyVars)
    (hne : t ≠ Ty.Variable v) : ∀ θ, ¬ Unifies θ (Ty.Variable v) t := by
  intro θ hu
  have hlt := size_apply_lt h hne θ
  rw [hu] at hlt
  exact lt_irrefl _ hlt

theorem single_subst_mgu {v : String} {ty : Ty} :
    IsMGU [(v, ty)] (Ty.Variable v) ty := by
  intro θ hu t
  induction t with
  | Named n => rfl
  | Variable w =>
    by_cases hw : w = v
    · subst hw
      rw [show (Ty.Variable w).apply_subs [(w, ty)] = ty from by
        simp [Ty.apply_subs, Subst.find?, List.find?]]
      exact hu
    · rw [show (Ty.Variable w).apply_subs [(v, ty)] = Ty.Variable w from by
        simp [Ty.apply_subs, find?_cons, Subst.find?]
        rw [if_neg (fun hh : v = w => hw hh.symm)]
        rfl]
  | Func f g ihf ihg =>
    rw [show (Ty.Func f g).apply_subs θ
        = Ty.Func (f.apply_subs θ) (g.apply_subs θ) from rfl]
    rw [show (Ty.Func f g).apply_subs [(v, ty)]
        = Ty.Func (f.apply_subs [(v, ty)]) (g.apply_subs [(v, ty)]) from rfl]
    rw [show (Ty.Func (f.apply_subs [(v, ty)]) (g.apply_subs [(v, ty)])).apply_subs θ
        = Ty.Func ((f.apply_subs [(v, ty)]).apply_subs θ)
            ((g.apply_subs [(v, ty)]).apply_subs θ) from rfl]
    rw [← ihf, ← ihg]

/-- `var_bind` is fully correct: self-bind is a no-op, occurs-check
failures have no unifier at all, and otherwise the singleton substitution
is an invariant-respecting most general unifier. -/
theorem var_bind_ugood (t : Ty) (v : String) :
    UGood (Ty.Variable v) t (t.var_bind v) := by
  unfold Ty.var_bind
  by_cases h1 : t = Ty.Variable v
  · subst h1
    simp
    exact ugood_ok_nil _
  · by_cases h2 : t.contains v = true
    · simp [h1, h2]
      exact no_unifier_occurs ((Ty.contains_iff t v).mp h2) h1
    · simp [h1, h2]
      have hvt : v ∉ t.tyVars := fun hm => h2 ((Ty.contains_iff t v).mpr hm)
      have hdom : sdom [(v, t)] = {v} := by simp [sdom]
      have hrv : srvars [(v, t)] = t.tyVars := by
        rw [srvars_cons]
        simp [srvars]
      refine ⟨⟨by simp [NodupKeys], ?_, ?_, ?_⟩, ?_, single_subst_mgu⟩
      · rw [hdom]
        intro w hw
        simp at hw
        subst hw
        exact Finset.mem_union_left _ (by simp [Ty.tyVars])
      · rw [hrv]
        exact Finset.subset_union_right
      · rw [hdom, hrv]
        simpa using hvt
      · show (Ty.Variable v).apply_subs [(v, t)] = t.apply_subs [(v, t)]
        rw [show (Ty.Variable v).apply_subs [(v, t)] = t from by
          simp [Ty.apply_subs, Subst.find?, List.find?]]
        rw [apply_subs_of_disjoint (by rw [hdom]; simpa using hvt)]

theorem unifyN_func_unfold (k : Nat) (xF xT yF yT : Ty) :
    unifyN (k + 1) (Ty.Func xF xT) (Ty.Func yF yT)
      = match unifyN k xF yF with
        | none => none
        | some (Except.error e) => some (Except.error e)
        | some (Except.ok s1) =>
          match unifyN k (xT.apply_subs s1) (yT.apply_subs s1) with
          | none => none
          | some (Except.error e) => some (Except.error e)
          | some (Except.ok s2) => some (Except.ok (s1.compose s2)) := rfl

theorem unifyN_func_of_none {k : Nat} {xF xT yF yT : Ty}
    (h1 : unifyN k xF yF = none) :
    unifyN (k + 1) (Ty.Func xF xT) (Ty.Func yF yT) = none := by
  rw [unifyN_func_unfold, h1]

theorem unifyN_func_of_err {k : Nat} {xF xT yF yT : Ty} {e : TyError}
    (h1 : unifyN k xF yF = some (Except.error e)) :
    unifyN (k + 1) (Ty.Func xF xT) (Ty.Func yF yT) = some (Except.error e) := by
  rw [unifyN_func_unfold, h1]

theorem unifyN_func_of_ok {k : Nat} {xF xT yF yT : Ty} {s1 : Subst}
    (h1 : unifyN k xF yF = some (Except.ok s1)) :
    unifyN (k + 1) (Ty.Func xF xT) (Ty.Func yF yT)
      = match unifyN k (xT.apply_subs s1) (yT.apply_subs s1) with
        | none => none
        | some (Except.error e) => some (Except.error e)
        | some (Except.ok s2) => some (Except.ok (s1.compose s2)) := by
  rw [unifyN_func_unfold, h1]

theorem unifyN_func_of_ok_none {k : Nat} {xF xT yF yT : Ty} {s1 : Subst}
    (h1 : unifyN k xF yF = some (Except.ok s1))
    (h2 : unifyN k (xT.apply_subs s1) (yT.apply_subs s1) = none) :
    unifyN (k + 1) (Ty.Func xF xT) (Ty.Func yF yT) = none := by
  rw [unifyN_func_of_ok h1, h2]

theorem unifyN_func_of_ok_err {k : Nat} {xF xT yF yT : Ty} {s1 : Subst}
    {e : TyError}
    (h1 : unifyN k xF yF = some (Except.ok s1))
    (h2 : unifyN k (xT.apply_subs s1) (yT.apply_subs s1)
      = some (Except.error e)) :
    unifyN (k + 1) (Ty.Func xF xT) (Ty.Func yF yT)
      = some (Except.error e) := by
  rw [unifyN_func_of_ok h1, h2]

theorem unifyN_func_of_ok_ok {k : Nat} {xF xT yF yT : Ty} {s1 s2 : Subst}
    (h1 : unifyN k xF yF = some (Except.ok s1))
    (h2 : unifyN k (xT.apply_subs s1) (yT.apply_subs s1)
      = some (Except.ok s2)) :
    unifyN (k + 1) (Ty.Func xF xT) (Ty.Func yF yT)
      = some (Except.ok (s1.compose s2)) := by
  rw [unifyN_func_of_ok h1, h2]

/-- Fuel monotonicity: once `unifyN` answers, more fuel gives the same
answer. -/
theorem unifyN_mono : ∀ k k', k ≤ k' → ∀ x y r,
    unifyN k x y = some r → unifyN k' x y = some r := by
  intro k
  induction k with
  | zero =>
    intro k' _ x y r h
    simp [unifyN] at h
  | succ k ih =>
    intro k' hk x y r h
    obtain ⟨k2, rfl⟩ : ∃ k2, k' = k2 + 1 := ⟨k' - 1, by omega⟩
    have hk2 : k ≤ k2 := by omega
    cases x with
    | Named a =>
      cases y with
      | Named b => simpa [unifyN] using h
      | Variable b => simpa [unifyN] using h
      | Func c d => simpa [unifyN] using h
    | Variable a => simpa [unifyN] using h
    | Func xF xT =>
      cases y with
      | Named b => simpa [unifyN] using h
      | Variable b => simpa [unifyN] using h
      | Func yF yT =>
        cases h1 : unifyN k xF yF with
        | none =>
          rw [unifyN_func_of_none h1] at h
          exact absurd h (by simp)
        | some r1 =>
          have h1' := ih k2 hk2 _ _ _ h1
          cases r1 with
          | error e =>
            rw [unifyN_func_of_err h1] at h
            rw [unifyN_func_of_err h1']
            exact h
          | ok s1 =>
            cases h2 : unifyN k (xT.apply_subs s1) (yT.apply_subs s1) with
            | none =>
              rw [unifyN_func_of_ok_none h1 h2] at h
              exact absurd h (by simp)
            | some r2 =>
              have h2' := ih k2 hk2 _ _ _ h2
              cases r2 with
              | error e =>
                rw [unifyN_func_of_ok_err h1 h2] at h
                rw [unifyN_func_of_ok_err h1' h2']
                exact h
              | ok s2 =>
                rw [unifyN_func_of_ok_ok h1 h2] at h
                rw [unifyN_func_of_ok_ok h1' h2']
                exact h

/-- Master theorem of the unification metatheory, by well-founded
induction on (number of distinct variables, combined size): some fuel is
enough (termination), and the result is `UGood` (success is an
invariant-respecting most general unifier; failure means no unifier
exists). -/
theorem unify_master_aux : ∀ n m x y,
    (x.tyVars ∪ y.tyVars).card ≤ n → x.size + y.size ≤ m →
    ∃ k r, unifyN k x y = some r ∧ UGood x y r := by
  intro n
  induction n using Nat.strong_induction_on with
  | _ n ihn =>
  intro m
  induction m using Nat.strong_induction_on with
  | _ m ihm =>
  intro x y hcard hsize
  cases x with
  | Variable a =>
    exact ⟨1, y.var_bind a, by simp [unifyN], var_bind_ugood y a⟩
  | Named a =>
    cases y with
    | Named b =>
      by_cases hab : a = b
      · subst hab
        exact ⟨1, Except.ok [], by simp [unifyN], ugood_ok_nil _⟩
      · refine ⟨1, Except.error (TyError.TypeMismatch (Ty.Named a) (Ty.Named b)),
          by simp [unifyN, hab], ?_⟩
        intro θ hu
        exact hab (unifies_named_iff.mp hu)
    | Variable b =>
      exact ⟨1, (Ty.Named a).var_bind b, by simp [unifyN],
        ugood_swap (var_bind_ugood (Ty.Named a) b)⟩
    | Func c d =>
      refine ⟨1, Except.error (TyError.TypeMismatch (Ty.Named a) (Ty.Func c d)),
        by simp [unifyN], ?_⟩
      intro θ hu
      exact not_unifies_named_func hu
  | Func xF xT =>
    cases y with
    | Named b =>
      refine ⟨1, Except.error (TyError.TypeMismatch (Ty.Func xF xT) (Ty.Named b)),
        by simp [unifyN], ?_⟩
      intro θ hu
      exact not_unifies_func_named hu
    | Variable b =>
      exact ⟨1, (Ty.Func xF xT).var_bind b, by simp [unifyN],
        ugood_swap (var_bind_ugood (Ty.Func xF xT) b)⟩
    | Func yF yT =>
      have hszF : xF.size + yF.size < m := by
        have h1 := Ty.size_pos xT
        have h2 := Ty.size_pos yT
        rw [show (Ty.Func xF xT).size = xF.size + xT.size + 1 from rfl,
          show (Ty.Func yF yT).size = yF.size + yT.size + 1 from rfl] at hsize
        omega
      have hVF : xF.tyVars ∪ yF.tyVars ⊆ (Ty.Func xF xT).tyVars ∪ (Ty.Func yF yT).tyVars := by
        rw [tyVars_func, tyVars_func]
        exact Finset.union_subset_union Finset.subset_union_left Finset.subset_union_left
      have hcardF : (xF.tyVars ∪ yF.tyVars).card ≤ n :=
        le_trans (Finset.card_le_card hVF) hcard
      obtain ⟨k1, r1, hk1, hg1⟩ := ihm (xF.size + yF.size) hszF xF yF hcardF (le_refl _)
      cases r1 with
      | error e =>
        refine ⟨k1 + 1, Except.error e, unifyN_func_of_err hk1, ?_⟩
        intro θ hu
        exact hg1 θ (unifies_func_iff.mp hu).1
      | ok s1 =>
        obtain ⟨hinv1, hu1, hmgu1⟩ := hg1
        obtain ⟨hnd1, hdom1, hrv1, hdisj1⟩ := hinv1
        have hV2 : (xT.apply_subs s1).tyVars ∪ (yT.apply_subs s1).tyVars
            ⊆ ((xT.tyVars ∪ yT.tyVars) \ sdom s1) ∪ srvars s1 := by
          apply Finset.union_subset
          · exact (tyVars_apply_subs xT s1).trans (Finset.union_subset_union
              (Finset.sdiff_subset_sdiff Finset.subset_union_left (le_refl _))
              (le_refl _))
          · exact (tyVars_apply_subs yT s1).trans (Finset.union_subset_union
              (Finset.sdiff_subset_sdiff Finset.subset_union_right (le_refl _))
              (le_refl _))
        have hVbig : ((xT.tyVars ∪ yT.tyVars) \ sdom s1) ∪ srvars s1
            ⊆ (Ty.Func xF xT).tyVars ∪ (Ty.Func yF yT).tyVars := by
          apply Finset.union_subset
          · refine le_trans (Finset.sdiff_subset) ?_
            rw [tyVars_func, tyVars_func]
            exact Finset.union_subset
              (Finset.subset_union_left.trans
                (by exact Finset.union_subset_union Finset.subset_union_right (le_refl _)))
              (Finset.subset_union_right.trans
                (by exact Finset.union_subset_union (le_refl _) Finset.subset_union_right))
          · exact hrv1.trans hVF
        obtain ⟨k2, r2, hk2, hg2⟩ :
            ∃ k r, unifyN k (xT.apply_subs s1) (yT.apply_subs s1) = some r ∧
              UGood (xT.apply_subs s1) (yT.apply_subs s1) r := by
          cases hs1 : s1 with
          | nil =>
            have hszT : xT.size + yT.size < m := by
              have h1 := Ty.size_pos xF
              have h2 := Ty.size_pos yF
              rw [show (Ty.Func xF xT).size = xF.size + xT.size + 1 from rfl,
                show (Ty.Func yF yT).size = yF.size + yT.size + 1 from rfl] at hsize
              omega
            have hVT : xT.tyVars ∪ yT.tyVars
                ⊆ (Ty.Func xF xT).tyVars ∪ (Ty.Func yF yT).tyVars := by
              rw [tyVars_func, tyVars_func]
              exact Finset.union_subset_union Finset.subset_union_right
                Finset.subset_union_right
            rw [apply_subs_nil, apply_subs_nil]
            exact ihm (xT.size + yT.size) hszT xT yT
              (le_trans (Finset.card_le_card hVT) hcard) (le_refl _)
          | cons p s1' =>
            rw [← hs1]
            have hv : p.1 ∈ sdom s1 := by
              rw [hs1, sdom_cons]
              exact Finset.mem_insert_self _ _
            have hvV : p.1 ∈ (Ty.Func xF xT).tyVars ∪ (Ty.Func yF yT).tyVars :=
              hVF (hdom1 hv)
            have hvnot : p.1 ∉ (xT.apply_subs s1).tyVars ∪ (yT.apply_subs s1).tyVars := by
              intro hmem
              rcases Finset.mem_union.mp (hV2 hmem) with h' | h'
              · exact (Finset.mem_sdiff.mp h').2 hv
              · exact (Finset.disjoint_left.mp hdisj1 hv) h'
            have hsub : (xT.apply_subs s1).tyVars ∪ (yT.apply_subs s1).tyVars
                ⊆ ((Ty.Func xF xT).tyVars ∪ (Ty.Func yF yT).tyVars).erase p.1 := by
              intro w hw
              refine Finset.mem_erase.mpr ⟨?_, (hV2.trans hVbig) hw⟩
              intro hwp
              subst hwp
              exact hvnot hw
            have hcardlt : ((xT.apply_subs s1).tyVars ∪ (yT.apply_subs s1).tyVars).card < n := by
              have h1 : ((xT.apply_subs s1).tyVars ∪ (yT.apply_subs s1).tyVars).card
                  ≤ (((Ty.Func xF xT).tyVars ∪ (Ty.Func yF yT).tyVars).erase p.1).card :=
                Finset.card_le_card hsub
              have h2 : (((Ty.Func xF xT).tyVars ∪ (Ty.Func yF yT).tyVars).erase p.1).card
                  < ((Ty.Func xF xT).tyVars ∪ (Ty.Func yF yT).tyVars).card :=
                Finset.card_erase_lt_of_mem hvV
              omega
            exact ihn _ hcardlt
              ((xT.apply_subs s1).size + (yT.apply_subs s1).size)
              (xT.apply_subs s1) (yT.apply_subs s1) (le_refl _) (le_refl _)
        cases r2 with
        | error e =>
          refine ⟨max k1 k2 + 1, Except.error e,
            unifyN_func_of_ok_err
              (unifyN_mono k1 (max k1 k2) (le_max_left _ _) _ _ _ hk1)
              (unifyN_mono k2 (max k1 k2) (le_max_right _ _) _ _ _ hk2), ?_⟩
          intro θ hu
          obtain ⟨huF, huT⟩ := unifies_func_iff.mp hu
          apply hg2 θ
          show (xT.apply_subs s1).apply_subs θ = (yT.apply_subs s1).apply_subs θ
          rw [← hmgu1 θ huF xT, ← hmgu1 θ huF yT]
          exact huT
        | ok s2 =>
          obtain ⟨hinv2, hu2, hmgu2⟩ := hg2
          obtain ⟨hnd2, hdom2, hrv2, hdisj2⟩ := hinv2
          have hdomdisj : Disjoint (sdom s1) (sdom s2) := by
            rw [Finset.disjoint_left]
            intro v hv1 hv2
            rcases Finset.mem_union.mp (hV2 (hdom2 hv2)) with h' | h'
            · exact (Finset.mem_sdiff.mp h').2 hv1
            · exact (Finset.disjoint_left.mp hdisj1 hv1) h'
          have happly := apply_subs_compose hnd2 hdomdisj
          refine ⟨max k1 k2 + 1, Except.ok (s1.compose s2),
            unifyN_func_of_ok_ok
              (unifyN_mono k1 (max k1 k2) (le_max_left _ _) _ _ _ hk1)
              (unifyN_mono k2 (max k1 k2) (le_max_right _ _) _ _ _ hk2),
            ?_, ?_, ?_⟩
          · -- SInv of the composition
            refine ⟨nodupKeys_compose hnd1, ?_, ?_, ?_⟩
            · refine sdom_compose.trans (Finset.union_subset (hdom1.trans hVF) ?_)
              exact hdom2.trans (hV2.trans hVbig)
            · refine srvars_compose.trans (Finset.union_subset ?_ ?_)
              · exact (Finset.sdiff_subset).trans (hrv1.trans hVF)
              · exact hrv2.trans (hV2.trans hVbig)
            · rw [Finset.disjoint_left]
              intro v hv hv'
              rcases Finset.mem_union.mp (sdom_compose hv) with hd | hd
              · rcases Finset.mem_union.mp (srvars_compose hv') with hr | hr
                · exact (Finset.disjoint_left.mp hdisj1 hd)
                    (Finset.mem_sdiff.mp hr).1
                · rcases Finset.mem_union.mp (hV2 (hrv2 hr)) with h' | h'
                  · exact (Finset.mem_sdiff.mp h').2 hd
                  · exact (Finset.disjoint_left.mp hdisj1 hd) h'
              · rcases Finset.mem_union.mp (srvars_compose hv') with hr | hr
                · exact (Finset.mem_sdiff.mp hr).2 hd
                · exact (Finset.disjoint_left.mp hdisj2 hd) hr
          · -- the composition unifies the two arrows
            show (Ty.Func xF xT).apply_subs (s1.compose s2)
              = (Ty.Func yF yT).apply_subs (s1.compose s2)
            rw [happly, happly]
            rw [show (Ty.Func xF xT).apply_subs s1
                = Ty.Func (xF.apply_subs s1) (xT.apply_subs s1) from rfl]
            rw [show (Ty.Func yF yT).apply_subs s1
                = Ty.Func (yF.apply_subs s1) (yT.apply_subs s1) from rfl]
            rw [show (Ty.Func (xF.apply_subs s1) (xT.apply_subs s1)).apply_subs s2
                = Ty.Func ((xF.apply_subs s1).apply_subs s2)
                    ((xT.apply_subs s1).apply_subs s2) from rfl]
            rw [show (Ty.Func (yF.apply_subs s1) (yT.apply_subs s1)).apply_subs s2
                = Ty.Func ((yF.apply_subs s1).apply_subs s2)
                    ((yT.apply_subs s1).apply_subs s2) from rfl]
            rw [hu1, hu2]
          · -- most general
            intro θ hu t
            obtain ⟨huF, huT⟩ := unifies_func_iff.mp hu
            have hθ2 : Unifies θ (xT.apply_subs s1) (yT.apply_subs s1) := by
              show (xT.apply_subs s1).apply_subs θ = (yT.apply_subs s1).apply_subs θ
              rw [← hmgu1 θ huF xT, ← hmgu1 θ huF yT]
              exact huT
            rw [happly t, ← hmgu2 θ hθ2 (t.apply_subs s1), ← hmgu1 θ huF t]

/-- Unification always terminates, and its result is sound and complete. -/
theorem unify_master (x y : Ty) :
    ∃ k r, unifyN k x y = some r ∧ UGood x y r :=
  unify_master_aux ((x.tyVars ∪ y.tyVars).card) (x.size + y.size) x y
    (le_refl _) (le_refl _)

/-! ### Stepping equations for `inferN` (one per match level) -/

theorem inferN_number (k : Nat) (n : Int) (ctx : Context) :
    inferN k (Expr.Number n) ctx
      = some (Except.ok (Ty.Named "Number", []), ctx, []) := rfl

theorem inferN_var_ok {name : String} {ctx : Context} {t : Ty}
    (h : ctx.get name = Except.ok t) (k : Nat) :
    inferN k (Expr.Variable name) ctx
      = some (Except.ok (t, []), ctx, []) := by
  simp only [inferN]
  rw [h]

theorem inferN_var_err {name : String} {ctx : Context} {e : TyError}
    (h : ctx.get name = Except.error e) (k : Nat) :
    inferN k (Expr.Variable name) ctx
      = some (Except.error e, ctx, []) := by
  simp only [inferN]
  rw [h]

theorem inferN_func_unfold (k : Nat) (param : String) (body : Expr)
    (ctx : Context) :
    inferN k (Expr.Func param body) ctx
      = match inferN k body
          (Context.mk ((param, Ty.Variable (tyVarName ctx.count)) :: ctx.vars)
            (ctx.count + 1)) with
        | none => none
        | some (Except.error e, _, log) =>
          some (Except.error e, Context.mk ctx.vars (ctx.count + 1),
            tyVarName ctx.count :: log)
        | some (Except.ok (bodyTy, subs), _, log) =>
          some (Except.ok
            (Ty.Func ((Ty.Variable (tyVarName ctx.count)).apply_subs subs) bodyTy,
              subs),
            Context.mk ctx.vars (ctx.count + 1), tyVarName ctx.count :: log) := rfl

theorem inferN_func_of_none {k : Nat} {param : String} {body : Expr}
    {ctx : Context}
    (h : inferN k body
      (Context.mk ((param, Ty.Variable (tyVarName ctx.count)) :: ctx.vars)
        (ctx.count + 1)) = none) :
    inferN k (Expr.Func param body) ctx = none := by
  rw [inferN_func_unfold, h]

theorem inferN_func_of_err {k : Nat} {param : String} {body : Expr}
    {ctx c : Context} {e : TyError} {log : List String}
    (h : inferN k body
      (Context.mk ((param, Ty.Variable (tyVarName ctx.count)) :: ctx.vars)
        (ctx.count + 1)) = some (Except.error e, c, log)) :
    inferN k (Expr.Func param body) ctx
      = some (Except.error e, Context.mk ctx.vars (ctx.count + 1),
          tyVarName ctx.count :: log) := by
  rw [inferN_func_unfold, h]

theorem inferN_func_of_ok {k : Nat} {param : String} {body : Expr}
    {ctx c : Context} {bodyTy : Ty} {subs : Subst} {log : List String}
    (h : inferN k body
      (Context.mk ((param, Ty.Variable (tyVarName ctx.count)) :: ctx.vars)
        (ctx.count + 1)) = some (Except.ok (bodyTy, subs), c, log)) :
    inferN k (Expr.Func param body) ctx
      = some (Except.ok
          (Ty.Func ((Ty.Variable (tyVarName ctx.count)).apply_subs subs) bodyTy,
            subs),
          Context.mk ctx.vars (ctx.count + 1), tyVarName ctx.count :: log) := by
  rw [inferN_func_unfold, h]

theorem inferN_call_of_func_none {k : Nat} {func arg : Expr} {ctx : Context}
    (h : inferN k func ctx = none) :
    inferN k (Expr.Call func arg) ctx = none := by
  simp only [inferN]
  rw [h]

theorem inferN_call_of_func_err {k : Nat} {func arg : Expr} {ctx ctx1 : Context}
    {e : TyError} {log1 : List String}
    (h : inferN k func ctx = some (Except.error e, ctx1, log1)) :
    inferN k (Expr.Call func arg) ctx = some (Except.error e, ctx1, log1) := by
  simp only [inferN]
  rw [h]

theorem inferN_call_of_func_ok {k : Nat} {func arg : Expr} {ctx ctx1 : Context}
    {funcTy : Ty} {subs : Subst} {log1 : List String}
    (h : inferN k func ctx = some (Except.ok (funcTy, subs), ctx1, log1)) :
    inferN k (Expr.Call func arg) ctx
      = match inferN k arg (ctx1.substitute subs) with
        | none => none
        | some (Except.error e, _, log2) =>
          some (Except.error e, ctx1, log1 ++ log2)
        | some (Except.ok (argTy, newSubs), _, log2) =>
          match unifyN k (Ty.Func argTy (Ty.Variable (tyVarName ctx1.count)))
              funcTy with
          | none => none
          | some (Except.error e) =>
            some (Except.error e, Context.mk ctx1.vars (ctx1.count + 1),
              log1 ++ log2 ++ [tyVarName ctx1.count])
          | some (Except.ok newSubs2) =>
            match (funcTy.apply_subs newSubs2).try_into_func with
            | Except.error e =>
              some (Except.error e, Context.mk ctx1.vars (ctx1.count + 1),
                log1 ++ log2 ++ [tyVarName ctx1.count])
            | Except.ok (fromTy, toTy) =>
              match unifyN k
                  (fromTy.apply_subs ((subs.compose newSubs).compose newSubs2))
                  argTy with
              | none => none
              | some (Except.error e) =>
                some (Except.error e, Context.mk ctx1.vars (ctx1.count + 1),
                  log1 ++ log2 ++ [tyVarName ctx1.count])
              | some (Except.ok s3) =>
                some (Except.ok
                  (toTy.apply_subs
                    (((subs.compose newSubs).compose newSubs2).compose s3),
                    ((subs.compose newSubs).compose newSubs2).compose s3),
                  Context.mk ctx1.vars (ctx1.count + 1),
                  log1 ++ log2 ++ [tyVarName ctx1.count]) := by
  simp only [inferN]
  rw [h]
  rfl

theorem inferN_call_of_arg_none {k : Nat} {func arg : Expr} {ctx ctx1 : Context}
    {funcTy : Ty} {subs : Subst} {log1 : List String}
    (hf : inferN k func ctx = some (Except.ok (funcTy, subs), ctx1, log1))
    (ha : inferN k arg (ctx1.substitute subs) = none) :
    inferN k (Expr.Call func arg) ctx = none := by
  rw [inferN_call_of_func_ok hf, ha]

theorem inferN_call_of_arg_err {k : Nat} {func arg : Expr}
    {ctx ctx1 c2 : Context} {funcTy : Ty} {subs : Subst} {log1 log2 : List String}
    {e : TyError}
    (hf : inferN k func ctx = some (Except.ok (funcTy, subs), ctx1, log1))
    (ha : inferN k arg (ctx1.substitute subs) = some (Except.error e, c2, log2)) :
    inferN k (Expr.Call func arg) ctx
      = some (Except.error e, ctx1, log1 ++ log2) := by
  rw [inferN_call_of_func_ok hf, ha]

theorem inferN_call_of_arg_ok {k : Nat} {func arg : Expr}
    {ctx ctx1 c2 : Context} {funcTy argTy : Ty} {subs newSubs : Subst}
    {log1 log2 : List String}
    (hf : inferN k func ctx = some (Except.ok (funcTy, subs), ctx1, log1))
    (ha : inferN k arg (ctx1.substitute subs)
      = some (Except.ok (argTy, newSubs), c2, log2)) :
    inferN k (Expr.Call func arg) ctx
      = match unifyN k (Ty.Func argTy (Ty.Variable (tyVarName ctx1.count)))
            funcTy with
        | none => none
        | some (Except.error e) =>
          some (Except.error e, Context.mk ctx1.vars (ctx1.count + 1),
            log1 ++ log2 ++ [tyVarName ctx1.count])
        | some (Except.ok newSubs2) =>
          match (funcTy.apply_subs newSubs2).try_into_func with
          | Except.error e =>
            some (Except.error e, Context.mk ctx1.vars (ctx1.count + 1),
              log1 ++ log2 ++ [tyVarName ctx1.count])
          | Except.ok (fromTy, toTy) =>
            match unifyN k
                (fromTy.apply_subs ((subs.compose newSubs).compose newSubs2))
                argTy with
            | none => none
            | some (Except.error e) =>
              some (Except.error e, Context.mk ctx1.vars (ctx1.count + 1),
                log1 ++ log2 ++ [tyVarName ctx1.count])
            | some (Except.ok s3) =>
              some (Except.ok
                (toTy.apply_subs
                  (((subs.compose newSubs).compose newSubs2).compose s3),
                  ((subs.compose newSubs).compose newSubs2).compose s3),
                Context.mk ctx1.vars (ctx1.count + 1),
                log1 ++ log2 ++ [tyVarName ctx1.count]) := by
  rw [inferN_call_of_func_ok hf, ha]

theorem inferN_call_of_unify1_none {k : Nat} {func arg : Expr}
    {ctx ctx1 c2 : Context} {funcTy argTy : Ty} {subs newSubs : Subst}
    {log1 log2 : List String}
    (hf : inferN k func ctx = some (Except.ok (funcTy, subs), ctx1, log1))
    (ha : inferN k arg (ctx1.substitute subs)
      = some (Except.ok (argTy, newSubs), c2, log2))
    (hu : unifyN k (Ty.Func argTy (Ty.Variable (tyVarName ctx1.count))) funcTy
      = none) :
    inferN k (Expr.Call func arg) ctx = none := by
  rw [inferN_call_of_arg_ok hf ha, hu]

theorem inferN_call_of_unify1_err {k : Nat} {func arg : Expr}
    {ctx ctx1 c2 : Context} {funcTy argTy : Ty} {subs newSubs : Subst}
    {log1 log2 : List String} {e : TyError}
    (hf : inferN k func ctx = some (Except.ok (funcTy, subs), ctx1, log1))
    (ha : inferN k arg (ctx1.substitute subs)
      = some (Except.ok (argTy, newSubs), c2, log2))
    (hu : unifyN k (Ty.Func argTy (Ty.Variable (tyVarName ctx1.count))) funcTy
      = some (Except.error e)) :
    inferN k (Expr.Call func arg) ctx
      = some (Except.error e, Context.mk ctx1.vars (ctx1.count + 1),
          log1 ++ log2 ++ [tyVarName ctx1.count]) := by
  rw [inferN_call_of_arg_ok hf ha, hu]

theorem inferN_call_of_unify1_ok {k : Nat} {func arg : Expr}
    {ctx ctx1 c2 : Context} {funcTy argTy : Ty} {subs newSubs newSubs2 : Subst}
    {log1 log2 : List String}
    (hf : inferN k func ctx = some (Except.ok (funcTy, subs), ctx1, log1))
    (ha : inferN k arg (ctx1.substitute subs)
      = some (Except.ok (argTy, newSubs), c2, log2))
    (hu : unifyN k (Ty.Func argTy (Ty.Variable (tyVarName ctx1.count))) funcTy
      = some (Except.ok newSubs2)) :
    inferN k (Expr.Call func arg) ctx
      = match (funcTy.apply_subs newSubs2).try_into_func with
        | Except.error e =>
          some (Except.error e, Context.mk ctx1.vars (ctx1.count + 1),
            log1 ++ log2 ++ [tyVarName ctx1.count])
        | Except.ok (fromTy, toTy) =>
          match unifyN k
              (fromTy.apply_subs ((subs.compose newSubs).compose newSubs2))
              argTy with
          | none => none
          | some (Except.error e) =>
            some (Except.error e, Context.mk ctx1.vars (ctx1.count + 1),
              log1 ++ log2 ++ [tyVarName ctx1.count])
          | some (Except.ok s3) =>
            some (Except.ok
              (toTy.apply_subs
                (((subs.compose newSubs).compose newSubs2).compose s3),
                ((subs.compose newSubs).compose newSubs2).compose s3),
              Context.mk ctx1.vars (ctx1.count + 1),
              log1 ++ log2 ++ [tyVarName ctx1.count]) := by
  rw [inferN_call_of_arg_ok hf ha, hu]

theorem inferN_call_of_narrow_ok {k : Nat} {func arg : Expr}
    {ctx ctx1 c2 : Context} {funcTy argTy fromTy toTy : Ty}
    {subs newSubs newSubs2 : Subst} {log1 log2 : List String}
    (hf : inferN k func ctx = some (Except.ok (funcTy, subs), ctx1, log1))
    (ha : inferN k arg (ctx1.substitute subs)
      = some (Except.ok (argTy, newSubs), c2, log2))
    (hu : unifyN k (Ty.Func argTy (Ty.Variable (tyVarName ctx1.count))) funcTy
      = some (Except.ok newSubs2))
    (ht : (funcTy.apply_subs newSubs2).try_into_func
      = Except.ok (fromTy, toTy)) :
    inferN k (Expr.Call func arg) ctx
      = match unifyN k
            (fromTy.apply_subs ((subs.compose newSubs).compose newSubs2))
            argTy with
        | none => none
        | some (Except.error e) =>
          some (Except.error e, Context.mk ctx1.vars (ctx1.count + 1),
            log1 ++ log2 ++ [tyVarName ctx1.count])
        | some (Except.ok s3) =>
          some (Except.ok
            (toTy.apply_subs
              (((subs.compose newSubs).compose newSubs2).compose s3),
              ((subs.compose newSubs).compose newSubs2).compose s3),
            Context.mk ctx1.vars (ctx1.count + 1),
            log1 ++ log2 ++ [tyVarName ctx1.count]) := by
  rw [inferN_call_of_unify1_ok hf ha hu, ht]

theorem inferN_call_of_narrow_err {k : Nat} {func arg : Expr}
    {ctx ctx1 c2 : Context} {funcTy argTy : Ty}
    {subs newSubs newSubs2 : Subst} {log1 log2 : List String} {e : TyError}
    (hf : inferN k func ctx = some (Except.ok (funcTy, subs), ctx1, log1))
    (ha : inferN k arg (ctx1.substitute subs)
      = some (Except.ok (argTy, newSubs), c2, log2))
    (hu : unifyN k (Ty.Func argTy (Ty.Variable (tyVarName ctx1.count))) funcTy
      = some (Except.ok newSubs2))
    (ht : (funcTy.apply_subs newSubs2).try_into_func = Except.error e) :
    inferN k (Expr.Call func arg) ctx
      = some (Except.error e, Context.mk ctx1.vars (ctx1.count + 1),
          log1 ++ log2 ++ [tyVarName ctx1.count]) := by
  rw [inferN_call_of_unify1_ok hf ha hu, ht]

theorem inferN_call_of_unify2_none {k : Nat} {func arg : Expr}
    {ctx ctx1 c2 : Context} {funcTy argTy fromTy toTy : Ty}
    {subs newSubs newSubs2 : Subst} {log1 log2 : List String}
    (hf : inferN k func ctx = some (Except.ok (funcTy, subs), ctx1, log1))
    (ha : inferN k arg (ctx1.substitute subs)
      = some (Except.ok (argTy, newSubs), c2, log2))
    (hu : unifyN k (Ty.Func argTy (Ty.Variable (tyVarName ctx1.count))) funcTy
      = some (Except.ok newSubs2))
    (ht : (funcTy.apply_subs newSubs2).try_into_func
      = Except.ok (fromTy, toTy))
    (hu2 : unifyN k
        (fromTy.apply_subs ((subs.compose newSubs).compose newSubs2)) argTy
      = none) :
    inferN k (Expr.Call func arg) ctx = none := by
  rw [inferN_call_of_narrow_ok hf ha hu ht, hu2]

theorem inferN_call_of_unify2_err {k : Nat} {func arg : Expr}
    {ctx ctx1 c2 : Context} {funcTy argTy fromTy toTy : Ty}
    {subs newSubs newSubs2 : Subst} {log1 log2 : List String} {e : TyError}
    (hf : inferN k func ctx = some (Except.ok (funcTy, subs), ctx1, log1))
    (ha : inferN k arg (ctx1.substitute subs)
      = some (Except.ok (argTy, newSubs), c2, log2))
    (hu : unifyN k (Ty.Func argTy (Ty.Variable (tyVarName ctx1.count))) funcTy
      = some (Except.ok newSubs2))
    (ht : (funcTy.apply_subs newSubs2).try_into_func
      = Except.ok (fromTy, toTy))
    (hu2 : unifyN k
        (fromTy.apply_subs ((subs.compose newSubs).compose newSubs2)) argTy
      = some (Except.error e)) :
    inferN k (Expr.Call func arg) ctx
      = some (Except.error e, Context.mk ctx1.vars (ctx1.count + 1),
          log1 ++ log2 ++ [tyVarName ctx1.count]) := by
  rw [inferN_call_of_narrow_ok hf ha hu ht, hu2]

theorem inferN_call_of_unify2_ok {k : Nat} {func arg : Expr}
    {ctx ctx1 c2 : Context} {funcTy argTy fromTy toTy : Ty}
    {subs newSubs newSubs2 s3 : Subst} {log1 log2 : List String}
    (hf : inferN k func ctx = some (Except.ok (funcTy, subs), ctx1, log1))
    (ha : inferN k arg (ctx1.substitute subs)
      = some (Except.ok (argTy, newSubs), c2, log2))
    (hu : unifyN k (Ty.Func argTy (Ty.Variable (tyVarName ctx1.count))) funcTy
      = some (Except.ok newSubs2))
    (ht : (funcTy.apply_subs newSubs2).try_into_func
      = Except.ok (fromTy, toTy))
    (hu2 : unifyN k
        (fromTy.apply_subs ((subs.compose newSubs).compose newSubs2)) argTy
      = some (Except.ok s3)) :
    inferN k (Expr.Call func arg) ctx
      = some (Except.ok
          (toTy.apply_subs (((subs.compose newSubs).compose newSubs2).compose s3),
            ((subs.compose newSubs).compose newSubs2).compose s3),
          Context.mk ctx1.vars (ctx1.count + 1),
          log1 ++ log2 ++ [tyVarName ctx1.count]) := by
  rw [inferN_call_of_narrow_ok hf ha hu ht, hu2]

theorem inferN_if_of_cond_none {k : Nat} {c tb fb : Expr} {ctx : Context}
    (h : inferN k c ctx = none) :
    inferN k (Expr.If c tb fb) ctx = none := by
  simp only [inferN]
  rw [h]

theorem inferN_if_of_cond_err {k : Nat} {c tb fb : Expr} {ctx ctx1 : Context}
    {e : TyError} {log1 : List String}
    (h : inferN k c ctx = some (Except.error e, ctx1, log1)) :
    inferN k (Expr.If c tb fb) ctx = some (Except.error e, ctx1, log1) := by
  simp only [inferN]
  rw [h]

theorem inferN_if_of_cond_ok {k : Nat} {c tb fb : Expr} {ctx ctx1 : Context}
    {conditionTy : Ty} {conditionSubs : Subst} {log1 : List String}
    (h : inferN k c ctx
      = some (Except.ok (conditionTy, conditionSubs), ctx1, log1)) :
    inferN k (Expr.If c tb fb) ctx
      = match unifyN k conditionTy (Ty.Named "Bool") with
        | none => none
        | some (Except.error e) => some (Except.error e, ctx1, log1)
        | some (Except.ok subs0) =>
          match inferN k tb (ctx1.substitute (conditionSubs.compose subs0)) with
          | none => none
          | some (Except.error e, _, log2) =>
            some (Except.error e, ctx1, log1 ++ log2)
          | some (Except.ok (tbTy, newSubs), ctx2, log2) =>
            match inferN k fb (ctx2.substitute newSubs) with
            | none => none
            | some (Except.error e, _, log3) =>
              some (Except.error e, ctx1, log1 ++ log2 ++ log3)
            | some (Except.ok (fbTy, newSubs2), _, log3) =>
              match unifyN k
                  (tbTy.apply_subs ((subs0.compose newSubs).compose newSubs2))
                  (fbTy.apply_subs ((subs0.compose newSubs).compose newSubs2))
                  with
              | none => none
              | some (Except.error e) =>
                some (Except.error e, ctx1, log1 ++ log2 ++ log3)
              | some (Except.ok ns) =>
                some (Except.ok
                  ((tbTy.apply_subs
                      ((subs0.compose newSubs).compose newSubs2)).apply_subs ns,
                    ((subs0.compose newSubs).compose newSubs2).compose ns),
                  ctx1, log1 ++ log2 ++ log3) := by
  simp only [inferN]
  rw [h]

theorem inferN_if_of_unify_none {k : Nat} {c tb fb : Expr} {ctx ctx1 : Context}
    {conditionTy : Ty} {conditionSubs : Subst} {log1 : List String}
    (h : inferN k c ctx
      = some (Except.ok (conditionTy, conditionSubs), ctx1, log1))
    (hu : unifyN k conditionTy (Ty.Named "Bool") = none) :
    inferN k (Expr.If c tb fb) ctx = none := by
  rw [inferN_if_of_cond_ok h, hu]

theorem inferN_if_of_unify_err {k : Nat} {c tb fb : Expr} {ctx ctx1 : Context}
    {conditionTy : Ty} {conditionSubs : Subst} {log1 : List String} {e : TyError}
    (h : inferN k c ctx
      = some (Except.ok (conditionTy, conditionSubs), ctx1, log1))
    (hu : unifyN k conditionTy (Ty.Named "Bool") = some (Except.error e)) :
    inferN k (Expr.If c tb fb) ctx = some (Except.error e, ctx1, log1) := by
  rw [inferN_if_of_cond_ok h, hu]

theorem inferN_if_of_unify_ok {k : Nat} {c tb fb : Expr} {ctx ctx1 : Context}
    {conditionTy : Ty} {conditionSubs subs0 : Subst} {log1 : List String}
    (h : inferN k c ctx
      = some (Except.ok (conditionTy, conditionSubs), ctx1, log1))
    (hu : unifyN k conditionTy (Ty.Named "Bool") = some (Except.ok subs0)) :
    inferN k (Expr.If c tb fb) ctx
      = match inferN k tb (ctx1.substitute (conditionSubs.compose subs0)) with
        | none => none
        | some (Except.error e, _, log2) =>
          some (Except.error e, ctx1, log1 ++ log2)
        | some (Except.ok (tbTy, newSubs), ctx2, log2) =>
          match inferN k fb (ctx2.substitute newSubs) with
          | none => none
          | some (Except.error e, _, log3) =>
            some (Except.error e, ctx1, log1 ++ log2 ++ log3)
          | some (Except.ok (fbTy, newSubs2), _, log3) =>
            match unifyN k
                (tbTy.apply_subs ((subs0.compose newSubs).compose newSubs2))
                (fbTy.apply_subs ((subs0.compose newSubs).compose newSubs2))
                with
            | none => none
            | some (Except.error e) =>
              some (Except.error e, ctx1, log1 ++ log2 ++ log3)
            | some (Except.ok ns) =>
              some (Except.ok
                ((tbTy.apply_subs
                    ((subs0.compose newSubs).compose newSubs2)).apply_subs ns,
                  ((subs0.compose newSubs).compose newSubs2).compose ns),
                ctx1, log1 ++ log2 ++ log3) := by
  rw [inferN_if_of_cond_ok h, hu]

theorem inferN_if_of_tb_none {k : Nat} {c tb fb : Expr} {ctx ctx1 : Context}
    {conditionTy : Ty} {conditionSubs subs0 : Subst} {log1 : List String}
    (h : inferN k c ctx
      = some (Except.ok (conditionTy, conditionSubs), ctx1, log1))
    (hu : unifyN k conditionTy (Ty.Named "Bool") = some (Except.ok subs0))
    (htb : inferN k tb (ctx1.substitute (conditionSubs.compose subs0)) = none) :
    inferN k (Expr.If c tb fb) ctx = none := by
  rw [inferN_if_of_unify_ok h hu, htb]

theorem inferN_if_of_tb_err {k : Nat} {c tb fb : Expr} {ctx ctx1 c2 : Context}
    {conditionTy : Ty} {conditionSubs subs0 : Subst} {log1 log2 : List String}
    {e : TyError}
    (h : inferN k c ctx
      = some (Except.ok (conditionTy, conditionSubs), ctx1, log1))
    (hu : unifyN k conditionTy (Ty.Named "Bool") = some (Except.ok subs0))
    (htb : inferN k tb (ctx1.substitute (conditionSubs.compose subs0))
      = some (Except.error e, c2, log2)) :
    inferN k (Expr.If c tb fb) ctx
      = some (Except.error e, ctx1, log1 ++ log2) := by
  rw [inferN_if_of_unify_ok h hu, htb]

theorem inferN_if_of_tb_ok {k : Nat} {c tb fb : Expr} {ctx ctx1 ctx2 : Context}
    {conditionTy tbTy : Ty} {conditionSubs subs0 newSubs : Subst}
    {log1 log2 : List String}
    (h : inferN k c ctx
      = some (Except.ok (conditionTy, conditionSubs), ctx1, log1))
    (hu : unifyN k conditionTy (Ty.Named "Bool") = some (Except.ok subs0))
    (htb : inferN k tb (ctx1.substitute (conditionSubs.compose subs0))
      = some (Except.ok (tbTy, newSubs), ctx2, log2)) :
    inferN k (Expr.If c tb fb) ctx
      = match inferN k fb (ctx2.substitute newSubs) with
        | none => none
        | some (Except.error e, _, log3) =>
          some (Except.error e, ctx1, log1 ++ log2 ++ log3)
        | some (Except.ok (fbTy, newSubs2), _, log3) =>
          match unifyN k
              (tbTy.apply_subs ((subs0.compose newSubs).compose newSubs2))
              (fbTy.apply_subs ((subs0.compose newSubs).compose newSubs2)) with
          | none => none
          | some (Except.error e) =>
            some (Except.error e, ctx1, log1 ++ log2 ++ log3)
          | some (Except.ok ns) =>
            some (Except.ok
              ((tbTy.apply_subs
                  ((subs0.compose newSubs).compose newSubs2)).apply_subs ns,
                ((subs0.compose newSubs).compose newSubs2).compose ns),
              ctx1, log1 ++ log2 ++ log3) := by
  rw [inferN_if_of_unify_ok h hu, htb]

theorem inferN_if_of_fb_none {k : Nat} {c tb fb : Expr} {ctx ctx1 ctx2 : Context}
    {conditionTy tbTy : Ty} {conditionSubs subs0 newSubs : Subst}
    {log1 log2 : List String}
    (h : inferN k c ctx
      = some (Except.ok (conditionTy, conditionSubs), ctx1, log1))
    (hu : unifyN k conditionTy (Ty.Named "Bool") = some (Except.ok subs0))
    (htb : inferN k tb (ctx1.substitute (conditionSubs.compose subs0))
      = some (Except.ok (tbTy, newSubs), ctx2, log2))
    (hfb : inferN k fb (ctx2.substitute newSubs) = none) :
    inferN k (Expr.If c tb fb) ctx = none := by
  rw [inferN_if_of_tb_ok h hu htb, hfb]

theorem inferN_if_of_fb_err {k : Nat} {c tb fb : Expr}
    {ctx ctx1 ctx2 c3 : Context} {conditionTy tbTy : Ty}
    {conditionSubs subs0 newSubs : Subst} {log1 log2 log3 : List String}
    {e : TyError}
    (h : inferN k c ctx
      = some (Except.ok (conditionTy, conditionSubs), ctx1, log1))
    (hu : unifyN k conditionTy (Ty.Named "Bool") = some (Except.ok subs0))
    (htb : inferN k tb (ctx1.substitute (conditionSubs.compose subs0))
      = some (Except.ok (tbTy, newSubs), ctx2, log2))
    (hfb : inferN k fb (ctx2.substitute newSubs)
      = some (Except.error e, c3, log3)) :
    inferN k (Expr.If c tb fb) ctx
      = some (Except.error e, ctx1, log1 ++ log2 ++ log3) := by
  rw [inferN_if_of_tb_ok h hu htb, hfb]

theorem inferN_if_of_fb_ok {k : Nat} {c tb fb : Expr}
    {ctx ctx1 ctx2 c3 : Context} {conditionTy tbTy fbTy : Ty}
    {conditionSubs subs0 newSubs newSubs2 : Subst} {log1 log2 log3 : List String}
    (h : inferN k c ctx
      = some (Except.ok (conditionTy, conditionSubs), ctx1, log1))
    (hu : unifyN k conditionTy (Ty.Named "Bool") = some (Except.ok subs0))
    (htb : inferN k tb (ctx1.substitute (conditionSubs.compose subs0))
      = some (Except.ok (tbTy, newSubs), ctx2, log2))
    (hfb : inferN k fb (ctx2.substitute newSubs)
      = some (Except.ok (fbTy, newSubs2), c3, log3)) :
    inferN k (Expr.If c tb fb) ctx
      = match unifyN k
            (tbTy.apply_subs ((subs0.compose newSubs).compose newSubs2))
            (fbTy.apply_subs ((subs0.compose newSubs).compose newSubs2)) with
        | none => none
        | some (Except.error e) =>
          some (Except.error e, ctx1, log1 ++ log2 ++ log3)
        | some (Except.ok ns) =>
          some (Except.ok
            ((tbTy.apply_subs
                ((subs0.compose newSubs).compose newSubs2)).apply_subs ns,
              ((subs0.compose newSubs).compose newSubs2).compose ns),
            ctx1, log1 ++ log2 ++ log3) := by
  rw [inferN_if_of_tb_ok h hu htb, hfb]

theorem inferN_if_of_unify2_none {k : Nat} {c tb fb : Expr}
    {ctx ctx1 ctx2 c3 : Context} {conditionTy tbTy fbTy : Ty}
    {conditionSubs subs0 newSubs newSubs2 : Subst} {log1 log2 log3 : List String}
    (h : inferN k c ctx
      = some (Except.ok (conditionTy, conditionSubs), ctx1, log1))
    (hu : unifyN k conditionTy (Ty.Named "Bool") = some (Except.ok subs0))
    (htb : inferN k tb (ctx1.substitute (conditionSubs.compose subs0))
      = some (Except.ok (tbTy, newSubs), ctx2, log2))
    (hfb : inferN k fb (ctx2.substitute newSubs)
      = some (Except.ok (fbTy, newSubs2), c3, log3))
    (hu2 : unifyN k
        (tbTy.apply_subs ((subs0.compose newSubs).compose newSubs2))
        (fbTy.apply_subs ((subs0.compose newSubs).compose newSubs2)) = none) :
    inferN k (Expr.If c tb fb) ctx = none := by
  rw [inferN_if_of_fb_ok h hu htb hfb, hu2]

theorem inferN_if_of_unify2_err {k : Nat} {c tb fb : Expr}
    {ctx ctx1 ctx2 c3 : Context} {conditionTy tbTy fbTy : Ty}
    {conditionSubs subs0 newSubs newSubs2 : Subst} {log1 log2 log3 : List String}
    {e : TyError}
    (h : inferN k c ctx
      = some (Except.ok (conditionTy, conditionSubs), ctx1, log1))
    (hu : unifyN k conditionTy (Ty.Named "Bool") = some (Except.ok subs0))
    (htb : inferN k tb (ctx1.substitute (conditionSubs.compose subs0))
      = some (Except.ok (tbTy, newSubs), ctx2, log2))
    (hfb : inferN k fb (ctx2.substitute newSubs)
      = some (Except.ok (fbTy, newSubs2), c3, log3))
    (hu2 : unifyN k
        (tbTy.apply_subs ((subs0.compose newSubs).compose newSubs2))
        (fbTy.apply_subs ((subs0.compose newSubs).compose newSubs2))
      = some (Except.error e)) :
    inferN k (Expr.If c tb fb) ctx
      = some (Except.error e, ctx1, log1 ++ log2 ++ log3) := by
  rw [inferN_if_of_fb_ok h hu htb hfb, hu2]

theorem inferN_if_of_unify2_ok {k : Nat} {c tb fb : Expr}
    {ctx ctx1 ctx2 c3 : Context} {conditionTy tbTy fbTy : Ty}
    {conditionSubs subs0 newSubs newSubs2 ns : Subst}
    {log1 log2 log3 : List String}
    (h : inferN k c ctx
      = some (Except.ok (conditionTy, conditionSubs), ctx1, log1))
    (hu : unifyN k conditionTy (Ty.Named "Bool") = some (Except.ok subs0))
    (htb : inferN k tb (ctx1.substitute (conditionSubs.compose subs0))
      = some (Except.ok (tbTy, newSubs), ctx2, log2))
    (hfb : inferN k fb (ctx2.substitute newSubs)
      = some (Except.ok (fbTy, newSubs2), c3, log3))
    (hu2 : unifyN k
        (tbTy.apply_subs ((subs0.compose newSubs).compose newSubs2))
        (fbTy.apply_subs ((subs0.compose newSubs).compose newSubs2))
      = some (Except.ok ns)) :
    inferN k (Expr.If c tb fb) ctx
      = some (Except.ok
          ((tbTy.apply_subs
              ((subs0.compose newSubs).compose newSubs2)).apply_subs ns,
            ((subs0.compose newSubs).compose newSubs2).compose ns),
          ctx1, log1 ++ log2 ++ log3) := by
  rw [inferN_if_of_fb_ok h hu htb hfb, hu2]

theorem inferN_let_of_expr_none {k : Nat} {name : String} {expr body : Expr}
    {ctx : Context}
    (h : inferN k expr ctx = none) :
    inferN k (Expr.Let name expr body) ctx = none := by
  simp only [inferN]
  rw [h]

theorem inferN_let_of_expr_err {k : Nat} {name : String} {expr body : Expr}
    {ctx ctx1 : Context} {e : TyError} {log1 : List String}
    (h : inferN k expr ctx = some (Except.error e, ctx1, log1)) :
    inferN k (Expr.Let name expr body) ctx
      = some (Except.error e, ctx1, log1) := by
  simp only [inferN]
  rw [h]

theorem inferN_let_of_expr_ok {k : Nat} {name : String} {expr body : Expr}
    {ctx ctx1 : Context} {exprTy : Ty} {subs : Subst} {log1 : List String}
    (h : inferN k expr ctx = some (Except.ok (exprTy, subs), ctx1, log1)) :
    inferN k (Expr.Let name expr body) ctx
      = match inferN k body ((ctx1.substitute subs).with' name exprTy) with
        | none => none
        | some (Except.error e, _, log2) =>
          some (Except.error e, ctx1, log1 ++ log2)
        | some (Except.ok (bodyTy, newSubs), _, log2) =>
          some (Except.ok (bodyTy, subs.compose newSubs), ctx1, log1 ++ log2) := by
  simp only [inferN]
  rw [h]

theorem inferN_let_of_body_none {k : Nat} {name : String} {expr body : Expr}
    {ctx ctx1 : Context} {exprTy : Ty} {subs : Subst} {log1 : List String}
    (h : inferN k expr ctx = some (Except.ok (exprTy, subs), ctx1, log1))
    (hb : inferN k body ((ctx1.substitute subs).with' name exprTy) = none) :
    inferN k (Expr.Let name expr body) ctx = none := by
  rw [inferN_let_of_expr_ok h, hb]

theorem inferN_let_of_body_err {k : Nat} {name : String} {expr body : Expr}
    {ctx ctx1 c2 : Context} {exprTy : Ty} {subs : Subst} {log1 log2 : List String}
    {e : TyError}
    (h : inferN k expr ctx = some (Except.ok (exprTy, subs), ctx1, log1))
    (hb : inferN k body ((ctx1.substitute subs).with' name exprTy)
      = some (Except.error e, c2, log2)) :
    inferN k (Expr.Let name expr body) ctx
      = some (Except.error e, ctx1, log1 ++ log2) := by
  rw [inferN_let_of_expr_ok h, hb]

theorem inferN_let_of_body_ok {k : Nat} {name : String} {expr body : Expr}
    {ctx ctx1 c2 : Context} {exprTy bodyTy : Ty} {subs newSubs : Subst}
    {log1 log2 : List String}
    (h : inferN k expr ctx = some (Except.ok (exprTy, subs), ctx1, log1))
    (hb : inferN k body ((ctx1.substitute subs).with' name exprTy)
      = some (Except.ok (bodyTy, newSubs), c2, log2)) :
    inferN k (Expr.Let name expr body) ctx
      = some (Except.ok (bodyTy, subs.compose newSubs), ctx1, log1 ++ log2) := by
  rw [inferN_let_of_expr_ok h, hb]

/-- Fuel monotonicity for inference. -/
theorem inferN_mono (e : Expr) : ∀ k k', k ≤ k' → ∀ ctx r,
    inferN k e ctx = some r → inferN k' e ctx = some r := by
  induction e with
  | Number n => intro k k' _ ctx r h; exact h
  | Variable name => intro k k' _ ctx r h; exact h
  | Func param body ih =>
    intro k k' hk ctx r h
    cases hb : inferN k body
        (Context.mk ((param, Ty.Variable (tyVarName ctx.count)) :: ctx.vars)
          (ctx.count + 1)) with
    | none => rw [inferN_func_of_none hb] at h; exact Option.noConfusion h
    | some rb =>
      obtain ⟨rbe, c, log⟩ := rb
      cases rbe with
      | error e0 =>
        rw [inferN_func_of_err hb] at h
        rw [inferN_func_of_err (ih k k' hk _ _ hb)]
        exact h
      | ok p =>
        obtain ⟨bodyTy, subs⟩ := p
        rw [inferN_func_of_ok hb] at h
        rw [inferN_func_of_ok (ih k k' hk _ _ hb)]
        exact h
  | Call func arg ihf iha =>
    intro k k' hk ctx r h
    cases hf : inferN k func ctx with
    | none => rw [inferN_call_of_func_none hf] at h; exact Option.noConfusion h
    | some rf =>
      obtain ⟨rfe, ctx1, log1⟩ := rf
      cases rfe with
      | error e0 =>
        rw [inferN_call_of_func_err hf] at h
        rw [inferN_call_of_func_err (ihf k k' hk _ _ hf)]
        exact h
      | ok p =>
        obtain ⟨funcTy, subs⟩ := p
        have hf' := ihf k k' hk _ _ hf
        cases ha : inferN k arg (ctx1.substitute subs) with
        | none =>
          rw [inferN_call_of_arg_none hf ha] at h
          exact Option.noConfusion h
        | some ra =>
          obtain ⟨rae, c2, log2⟩ := ra
          cases rae with
          | error e0 =>
            rw [inferN_call_of_arg_err hf ha] at h
            rw [inferN_call_of_arg_err hf' (iha k k' hk _ _ ha)]
            exact h
          | ok q =>
            obtain ⟨argTy, newSubs⟩ := q
            have ha' := iha k k' hk _ _ ha
            cases hu : unifyN k
                (Ty.Func argTy (Ty.Variable (tyVarName ctx1.count))) funcTy with
            | none =>
              rw [inferN_call_of_unify1_none hf ha hu] at h
              exact Option.noConfusion h
            | some ru =>
              have hu' := unifyN_mono k k' hk _ _ _ hu
              cases ru with
              | error e0 =>
                rw [inferN_call_of_unify1_err hf ha hu] at h
                rw [inferN_call_of_unify1_err hf' ha' hu']
                exact h
              | ok newSubs2 =>
                cases ht : (funcTy.apply_subs newSubs2).try_into_func with
                | error e0 =>
                  rw [inferN_call_of_narrow_err hf ha hu ht] at h
                  rw [inferN_call_of_narrow_err hf' ha' hu' ht]
                  exact h
                | ok pq =>
                  obtain ⟨fromTy, toTy⟩ := pq
                  cases hu2 : unifyN k
                      (fromTy.apply_subs
                        ((subs.compose newSubs).compose newSubs2)) argTy with
                  | none =>
                    rw [inferN_call_of_unify2_none hf ha hu ht hu2] at h
                    exact Option.noConfusion h
                  | some ru2 =>
                    have hu2' := unifyN_mono k k' hk _ _ _ hu2
                    cases ru2 with
                    | error e0 =>
                      rw [inferN_call_of_unify2_err hf ha hu ht hu2] at h
                      rw [inferN_call_of_unify2_err hf' ha' hu' ht hu2']
                      exact h
                    | ok s3 =>
                      rw [inferN_call_of_unify2_ok hf ha hu ht hu2] at h
                      rw [inferN_call_of_unify2_ok hf' ha' hu' ht hu2']
                      exact h
  | If c tb fb ihc ihtb ihfb =>
    intro k k' hk ctx r h
    cases hc : inferN k c ctx with
    | none => rw [inferN_if_of_cond_none hc] at h; exact Option.noConfusion h
    | some rc =>
      obtain ⟨rce, ctx1, log1⟩ := rc
      cases rce with
      | error e0 =>
        rw [inferN_if_of_cond_err hc] at h
        rw [inferN_if_of_cond_err (ihc k k' hk _ _ hc)]
        exact h
      | ok p =>
        obtain ⟨conditionTy, conditionSubs⟩ := p
        have hc' := ihc k k' hk _ _ hc
        cases hu : unifyN k conditionTy (Ty.Named "Bool") with
        | none =>
          rw [inferN_if_of_unify_none hc hu] at h
          exact Option.noConfusion h
        | some ru =>
          have hu' := unifyN_mono k k' hk _ _ _ hu
          cases ru with
          | error e0 =>
            rw [inferN_if_of_unify_err hc hu] at h
            rw [inferN_if_of_unify_err hc' hu']
            exact h
          | ok subs0 =>
            cases htb : inferN k tb
                (ctx1.substitute (conditionSubs.compose subs0)) with
            | none =>
              rw [inferN_if_of_tb_none hc hu htb] at h
              exact Option.noConfusion h
            | some rtb =>
              obtain ⟨rtbe, ctx2, log2⟩ := rtb
              cases rtbe with
              | error e0 =>
                rw [inferN_if_of_tb_err hc hu htb] at h
                rw [inferN_if_of_tb_err hc' hu' (ihtb k k' hk _ _ htb)]
                exact h
              | ok q =>
                obtain ⟨tbTy, newSubs⟩ := q
                have htb' := ihtb k k' hk _ _ htb
                cases hfb : inferN k fb (ctx2.substitute newSubs) with
                | none =>
                  rw [inferN_if_of_fb_none hc hu htb hfb] at h
                  exact Option.noConfusion h
                | some rfb =>
                  obtain ⟨rfbe, c3, log3⟩ := rfb
                  cases rfbe with
                  | error e0 =>
                    rw [inferN_if_of_fb_err hc hu htb hfb] at h
                    rw [inferN_if_of_fb_err hc' hu' htb'
                      (ihfb k k' hk _ _ hfb)]
                    exact h
                  | ok q2 =>
                    obtain ⟨fbTy, newSubs2⟩ := q2
                    have hfb' := ihfb k k' hk _ _ hfb
                    cases hu2 : unifyN k
                        (tbTy.apply_subs
                          ((subs0.compose newSubs).compose newSubs2))
                        (fbTy.apply_subs
                          ((subs0.compose newSubs).compose newSubs2)) with
                    | none =>
                      rw [inferN_if_of_unify2_none hc hu htb hfb hu2] at h
                      exact Option.noConfusion h
                    | some ru2 =>
                      have hu2' := unifyN_mono k k' hk _ _ _ hu2
                      cases ru2 with
                      | error e0 =>
                        rw [inferN_if_of_unify2_err hc hu htb hfb hu2] at h
                        rw [inferN_if_of_unify2_err hc' hu' htb' hfb' hu2']
                        exact h
                      | ok ns =>
                        rw [inferN_if_of_unify2_ok hc hu htb hfb hu2] at h
                        rw [inferN_if_of_unify2_ok hc' hu' htb' hfb' hu2']
                        exact h
  | Let name expr body ihe ihb =>
    intro k k' hk ctx r h
    cases he : inferN k expr ctx with
    | none => rw [inferN_let_of_expr_none he] at h; exact Option.noConfusion h
    | some re =>
      obtain ⟨ree, ctx1, log1⟩ := re
      cases ree with
      | error e0 =>
        rw [inferN_let_of_expr_err he] at h
        rw [inferN_let_of_expr_err (ihe k k' hk _ _ he)]
        exact h
      | ok p =>
        obtain ⟨exprTy, subs⟩ := p
        have he' := ihe k k' hk _ _ he
        cases hb : inferN k body ((ctx1.substitute subs).with' name exprTy) with
        | none =>
          rw [inferN_let_of_body_none he hb] at h
          exact Option.noConfusion h
        | some rb =>
          obtain ⟨rbe, c2, log2⟩ := rb
          cases rbe with
          | error e0 =>
            rw [inferN_let_of_body_err he hb] at h
            rw [inferN_let_of_body_err he' (ihb k k' hk _ _ hb)]
            exact h
          | ok q =>
            obtain ⟨bodyTy, newSubs⟩ := q
            rw [inferN_let_of_body_ok he hb] at h
            rw [inferN_let_of_body_ok he' (ihb k k' hk _ _ hb)]
            exact h

/-- Inference always terminates: some fuel produces an answer. -/
theorem inferN_total (e : Expr) : ∀ ctx : Context,
    ∃ k r, inferN k e ctx = some r := by
  induction e with
  | Number n => intro ctx; exact ⟨1, _, inferN_number 1 n ctx⟩
  | Variable name =>
    intro ctx
    cases hg : ctx.get name with
    | ok t => exact ⟨1, _, inferN_var_ok hg 1⟩
    | error e0 => exact ⟨1, _, inferN_var_err hg 1⟩
  | Func param body ih =>
    intro ctx
    obtain ⟨k, r, hk⟩ := ih
      (Context.mk ((param, Ty.Variable (tyVarName ctx.count)) :: ctx.vars)
        (ctx.count + 1))
    obtain ⟨re, c, log⟩ := r
    cases re with
    | error e0 => exact ⟨k, _, inferN_func_of_err hk⟩
    | ok p =>
      obtain ⟨bodyTy, subs⟩ := p
      exact ⟨k, _, inferN_func_of_ok hk⟩
  | Call func arg ihf iha =>
    intro ctx
    obtain ⟨kf, rf, hf⟩ := ihf ctx
    obtain ⟨rfe, ctx1, log1⟩ := rf
    cases rfe with
    | error e0 => exact ⟨kf, _, inferN_call_of_func_err hf⟩
    | ok p =>
      obtain ⟨funcTy, subs⟩ := p
      obtain ⟨ka, ra, ha⟩ := iha (ctx1.substitute subs)
      obtain ⟨rae, c2, log2⟩ := ra
      cases rae with
      | error e0 =>
        refine ⟨max kf ka, _, inferN_call_of_arg_err
          (inferN_mono func kf _ (le_max_left _ _) _ _ hf)
          (inferN_mono arg ka _ (le_max_right _ _) _ _ ha)⟩
      | ok q =>
        obtain ⟨argTy, newSubs⟩ := q
        obtain ⟨ku, ru, hu, _⟩ := unify_master
          (Ty.Func argTy (Ty.Variable (tyVarName ctx1.count))) funcTy
        cases ru with
        | error e0 =>
          refine ⟨max (max kf ka) ku, _, inferN_call_of_unify1_err
            (inferN_mono func kf _ (by omega) _ _ hf)
            (inferN_mono arg ka _ (by omega) _ _ ha)
            (unifyN_mono ku _ (by omega) _ _ _ hu)⟩
        | ok newSubs2 =>
          cases ht : (funcTy.apply_subs newSubs2).try_into_func with
          | error e0 =>
            refine ⟨max (max kf ka) ku, _, inferN_call_of_narrow_err
              (inferN_mono func kf _ (by omega) _ _ hf)
              (inferN_mono arg ka _ (by omega) _ _ ha)
              (unifyN_mono ku _ (by omega) _ _ _ hu) ht⟩
          | ok pq =>
            obtain ⟨fromTy, toTy⟩ := pq
            obtain ⟨ku2, ru2, hu2, _⟩ := unify_master
              (fromTy.apply_subs ((subs.compose newSubs).compose newSubs2)) argTy
            cases ru2 with
            | error e0 =>
              refine ⟨max (max (max kf ka) ku) ku2, _, inferN_call_of_unify2_err
                (inferN_mono func kf _ (by omega) _ _ hf)
                (inferN_mono arg ka _ (by omega) _ _ ha)
                (unifyN_mono ku _ (by omega) _ _ _ hu) ht
                (unifyN_mono ku2 _ (by omega) _ _ _ hu2)⟩
            | ok s3 =>
              refine ⟨max (max (max kf ka) ku) ku2, _, inferN_call_of_unify2_ok
                (inferN_mono func kf _ (by omega) _ _ hf)
                (inferN_mono arg ka _ (by omega) _ _ ha)
                (unifyN_mono ku _ (by omega) _ _ _ hu) ht
                (unifyN_mono ku2 _ (by omega) _ _ _ hu2)⟩
  | If c tb fb ihc ihtb ihfb =>
    intro ctx
    obtain ⟨kc, rc, hc⟩ := ihc ctx
    obtain ⟨rce, ctx1, log1⟩ := rc
    cases rce with
    | error e0 => exact ⟨kc, _, inferN_if_of_cond_err hc⟩
    | ok p =>
      obtain ⟨conditionTy, conditionSubs⟩ := p
      obtain ⟨ku, ru, hu, _⟩ := unify_master conditionTy (Ty.Named "Bool")
      cases ru with
      | error e0 =>
        refine ⟨max kc ku, _, inferN_if_of_unify_err
          (inferN_mono c kc _ (le_max_left _ _) _ _ hc)
          (unifyN_mono ku _ (le_max_right _ _) _ _ _ hu)⟩
      | ok subs0 =>
        obtain ⟨ktb, rtb, htb⟩ := ihtb
          (ctx1.substitute (conditionSubs.compose subs0))
        obtain ⟨rtbe, ctx2, log2⟩ := rtb
        cases rtbe with
        | error e0 =>
          refine ⟨max (max kc ku) ktb, _, inferN_if_of_tb_err
            (inferN_mono c kc _ (by omega) _ _ hc)
            (unifyN_mono ku _ (by omega) _ _ _ hu)
            (inferN_mono tb ktb _ (by omega) _ _ htb)⟩
        | ok q =>
          obtain ⟨tbTy, newSubs⟩ := q
          obtain ⟨kfb, rfb, hfb⟩ := ihfb (ctx2.substitute newSubs)
          obtain ⟨rfbe, c3, log3⟩ := rfb
          cases rfbe with
          | error e0 =>
            refine ⟨max (max (max kc ku) ktb) kfb, _, inferN_if_of_fb_err
              (inferN_mono c kc _ (by omega) _ _ hc)
              (unifyN_mono ku _ (by omega) _ _ _ hu)
              (inferN_mono tb ktb _ (by omega) _ _ htb)
              (inferN_mono fb kfb _ (by omega) _ _ hfb)⟩
          | ok q2 =>
            obtain ⟨fbTy, newSubs2⟩ := q2
            obtain ⟨ku2, ru2, hu2, _⟩ := unify_master
              (tbTy.apply_subs ((subs0.compose newSubs).compose newSubs2))
              (fbTy.apply_subs ((subs0.compose newSubs).compose newSubs2))
            cases ru2 with
            | error e0 =>
              refine ⟨max (max (max (max kc ku) ktb) kfb) ku2, _,
                inferN_if_of_unify2_err
                (inferN_mono c kc _ (by omega) _ _ hc)
                (unifyN_mono ku _ (by omega) _ _ _ hu)
                (inferN_mono tb ktb _ (by omega) _ _ htb)
                (inferN_mono fb kfb _ (by omega) _ _ hfb)
                (unifyN_mono ku2 _ (by omega) _ _ _ hu2)⟩
            | ok ns =>
              refine ⟨max (max (max (max kc ku) ktb) kfb) ku2, _,
                inferN_if_of_unify2_ok
                (inferN_mono c kc _ (by omega) _ _ hc)
                (unifyN_mono ku _ (by omega) _ _ _ hu)
                (inferN_mono tb ktb _ (by omega) _ _ htb)
                (inferN_mono fb kfb _ (by omega) _ _ hfb)
                (unifyN_mono ku2 _ (by omega) _ _ _ hu2)⟩
  | Let name expr body ihe ihb =>
    intro ctx
    obtain ⟨ke, re, he⟩ := ihe ctx
    obtain ⟨ree, ctx1, log1⟩ := re
    cases ree with
    | error e0 => exact ⟨ke, _, inferN_let_of_expr_err he⟩
    | ok p =>
      obtain ⟨exprTy, subs⟩ := p
      obtain ⟨kb, rb, hb⟩ := ihb ((ctx1.substitute subs).with' name exprTy)
      obtain ⟨rbe, c2, log2⟩ := rb
      cases rbe with
      | error e0 =>
        refine ⟨max ke kb, _, inferN_let_of_body_err
          (inferN_mono expr ke _ (le_max_left _ _) _ _ he)
          (inferN_mono body kb _ (le_max_right _ _) _ _ hb)⟩
      | ok q =>
        obtain ⟨bodyTy, newSubs⟩ := q
        refine ⟨max ke kb, _, inferN_let_of_body_ok
          (inferN_mono expr ke _ (le_max_left _ _) _ _ he)
          (inferN_mono body kb _ (le_max_right _ _) _ _ hb)⟩

theorem var_bind_err_shape {t : Ty} {v : String} {e : TyError}
    (h : t.var_bind v = Except.error e) : e = TyError.InfiniteType v := by
  unfold Ty.var_bind at h
  by_cases h1 : t = Ty.Variable v
  · simp [h1] at h
  · by_cases h2 : t.contains v = true
    · simp [h1, h2] at h
      exact h.symm
    · simp [h1, h2] at h

theorem context_get_err_shape {ctx : Context} {name : String} {e : TyError}
    (h : ctx.get name = Except.error e) : e = TyError.UnboundVariable name := by
  unfold Context.get at h
  cases hf : ctx.vars.find? (fun p => p.1 == name) with
  | some p => rw [hf] at h; exact Except.noConfusion h
  | none =>
    rw [hf] at h
    injection h with h
    exact h.symm

/-- `unifyN` never fails with `NotAFunction`: its only failures are
`TypeMismatch` and `InfiniteType`. -/
theorem unifyN_no_naf : ∀ (k : Nat) (x y : Ty) (e : TyError),
    unifyN k x y = some (Except.error e) → e ≠ TyError.NotAFunction := by
  intro k
  induction k with
  | zero => intro x y e h; exact Option.noConfusion h
  | succ k ih =>
    intro x y e h
    cases x with
    | Named a =>
      cases y with
      | Named b =>
        by_cases hab : a = b
        · simp [unifyN, hab] at h
        · simp [unifyN, hab] at h
          rw [← h]
          intro hc
          exact TyError.noConfusion hc
      | Variable b =>
        rw [show unifyN (k + 1) (Ty.Named a) (Ty.Variable b)
            = some ((Ty.Named a).var_bind b) from rfl] at h
        injection h with h
        rw [var_bind_err_shape h]
        intro hc
        exact TyError.noConfusion hc
      | Func c d =>
        rw [show unifyN (k + 1) (Ty.Named a) (Ty.Func c d)
            = some (Except.error
                (TyError.TypeMismatch (Ty.Named a) (Ty.Func c d))) from rfl] at h
        injection h with h
        injection h with h
        rw [← h]
        intro hc
        exact TyError.noConfusion hc
    | Variable a =>
      simp only [unifyN, Option.some.injEq] at h
      rw [var_bind_err_shape h]
      intro hc
      exact TyError.noConfusion hc
    | Func xF xT =>
      cases y with
      | Named b =>
        rw [show unifyN (k + 1) (Ty.Func xF xT) (Ty.Named b)
            = some (Except.error
                (TyError.TypeMismatch (Ty.Func xF xT) (Ty.Named b))) from rfl] at h
        injection h with h
        injection h with h
        rw [← h]
        intro hc
        exact TyError.noConfusion hc
      | Variable b =>
        rw [show unifyN (k + 1) (Ty.Func xF xT) (Ty.Variable b)
            = some ((Ty.Func xF xT).var_bind b) from rfl] at h
        injection h with h
        rw [var_bind_err_shape h]
        intro hc
        exact TyError.noConfusion hc
      | Func yF yT =>
        cases h1 : unifyN k xF yF with
        | none => rw [unifyN_func_of_none h1] at h; exact Option.noConfusion h
        | some r1 =>
          cases r1 with
          | error e1 =>
            rw [unifyN_func_of_err h1] at h
            injection h with h
            injection h with h
            rw [← h]
            exact ih _ _ _ h1
          | ok s1 =>
            cases h2 : unifyN k (xT.apply_subs s1) (yT.apply_subs s1) with
            | none =>
              rw [unifyN_func_of_ok_none h1 h2] at h
              exact Option.noConfusion h
            | some r2 =>
              cases r2 with
              | error e2 =>
                rw [unifyN_func_of_ok_err h1 h2] at h
                injection h with h
                injection h with h
                rw [← h]
                exact ih _ _ _ h2
              | ok s2 =>
                rw [unifyN_func_of_ok_ok h1 h2] at h
                injection h with h
                exact Except.noConfusion h

/-- After successfully unifying an arrow against `funcTy`, applying the
resulting substitution to `funcTy` necessarily produces an arrow, so the
`try_into_func` narrowing cannot fail. -/
theorem unify_func_shape : ∀ (k : Nat) (a r funcTy : Ty) (s : Subst),
    unifyN k (Ty.Func a r) funcTy = some (Except.ok s) →
    ∃ u v, funcTy.apply_subs s = Ty.Func u v := by
  intro k a r funcTy s h
  cases funcTy with
  | Named n =>
    cases k with
    | zero => exact Option.noConfusion h
    | succ k =>
      rw [show unifyN (k + 1) (Ty.Func a r) (Ty.Named n)
          = some (Except.error
              (TyError.TypeMismatch (Ty.Func a r) (Ty.Named n))) from rfl] at h
      injection h with h
      exact Except.noConfusion h
  | Variable v =>
    cases k with
    | zero => exact Option.noConfusion h
    | succ k =>
      rw [show unifyN (k + 1) (Ty.Func a r) (Ty.Variable v)
          = some ((Ty.Func a r).var_bind v) from rfl] at h
      injection h with h
      unfold Ty.var_bind at h
      rw [if_neg (by intro hc; exact Ty.noConfusion hc)] at h
      by_cases h2 : (Ty.Func a r).contains v = true
      · rw [if_pos h2] at h
        exact Except.noConfusion h
      · rw [if_neg h2] at h
        injection h with h
        refine ⟨a, r, ?_⟩
        rw [← h]
        simp [Ty.apply_subs, Subst.find?, List.find?]
  | Func u w =>
    exact ⟨u.apply_subs s, w.apply_subs s, rfl⟩

/-- Inference can only fail with `UnboundVariable`, `TypeMismatch` or
`InfiniteType`: the `NotAFunction` narrowing failure is unreachable,
because the preceding unification already forced the function type into
arrow shape. -/
theorem inferN_no_naf : ∀ (e : Expr) (k : Nat) (ctx : Context)
    (err : TyError) (c : Context) (l : List String),
    inferN k e ctx = some (Except.error err, c, l) →
    err ≠ TyError.NotAFunction := by
  intro e
  induction e with
  | Number n =>
    intro k ctx err c l h
    rw [inferN_number] at h
    simp at h
  | Variable name =>
    intro k ctx err c l h
    cases hg : ctx.get name with
    | ok t =>
      rw [inferN_var_ok hg] at h
      simp at h
    | error e0 =>
      rw [inferN_var_err hg] at h
      simp at h
      rw [← h.1, context_get_err_shape hg]
      intro hc
      exact TyError.noConfusion hc
  | Func param body ih =>
    intro k ctx err c l h
    cases hb : inferN k body
        (Context.mk ((param, Ty.Variable (tyVarName ctx.count)) :: ctx.vars)
          (ctx.count + 1)) with
    | none => rw [inferN_func_of_none hb] at h; exact Option.noConfusion h
    | some rb =>
      obtain ⟨rbe, cb, logb⟩ := rb
      cases rbe with
      | error e0 =>
        rw [inferN_func_of_err hb] at h
        simp at h
        rw [← h.1]
        exact ih _ _ _ _ _ hb
      | ok p =>
        obtain ⟨bodyTy, subs⟩ := p
        rw [inferN_func_of_ok hb] at h
        simp at h
  | Call func arg ihf iha =>
    intro k ctx err c l h
    cases hf : inferN k func ctx with
    | none => rw [inferN_call_of_func_none hf] at h; exact Option.noConfusion h
    | some rf =>
      obtain ⟨rfe, ctx1, log1⟩ := rf
      cases rfe with
      | error e0 =>
        rw [inferN_call_of_func_err hf] at h
        simp at h
        rw [← h.1]
        exact ihf _ _ _ _ _ hf
      | ok p =>
        obtain ⟨funcTy, subs⟩ := p
        cases ha : inferN k arg (ctx1.substitute subs) with
        | none =>
          rw [inferN_call_of_arg_none hf ha] at h
          exact Option.noConfusion h
        | some ra =>
          obtain ⟨rae, c2, log2⟩ := ra
          cases rae with
          | error e0 =>
            rw [inferN_call_of_arg_err hf ha] at h
            simp at h
            rw [← h.1]
            exact iha _ _ _ _ _ ha
          | ok q =>
            obtain ⟨argTy, newSubs⟩ := q
            cases hu : unifyN k
                (Ty.Func argTy (Ty.Variable (tyVarName ctx1.count))) funcTy with
            | none =>
              rw [inferN_call_of_unify1_none hf ha hu] at h
              exact Option.noConfusion h
            | some ru =>
              cases ru with
              | error e0 =>
                rw [inferN_call_of_unify1_err hf ha hu] at h
                simp at h
                rw [← h.1]
                exact unifyN_no_naf _ _ _ _ hu
              | ok newSubs2 =>
                cases ht : (funcTy.apply_subs newSubs2).try_into_func with
                | error e0 =>
                  obtain ⟨u, v, huv⟩ := unify_func_shape _ _ _ _ _ hu
                  rw [huv] at ht
                  unfold Ty.try_into_func at ht
                  exact Except.noConfusion ht
                | ok pq =>
                  obtain ⟨fromTy, toTy⟩ := pq
                  cases hu2 : unifyN k
                      (fromTy.apply_subs
                        ((subs.compose newSubs).compose newSubs2)) argTy with
                  | none =>
                    rw [inferN_call_of_unify2_none hf ha hu ht hu2] at h
                    exact Option.noConfusion h
                  | some ru2 =>
                    cases ru2 with
                    | error e0 =>
                      rw [inferN_call_of_unify2_err hf ha hu ht hu2] at h
                      simp at h
                      rw [← h.1]
                      exact unifyN_no_naf _ _ _ _ hu2
                    | ok s3 =>
                      rw [inferN_call_of_unify2_ok hf ha hu ht hu2] at h
                      simp at h
  | If c0 tb fb ihc ihtb ihfb =>
    intro k ctx err c l h
    cases hc : inferN k c0 ctx with
    | none => rw [inferN_if_of_cond_none hc] at h; exact Option.noConfusion h
    | some rc =>
      obtain ⟨rce, ctx1, log1⟩ := rc
      cases rce with
      | error e0 =>
        rw [inferN_if_of_cond_err hc] at h
        simp at h
        rw [← h.1]
        exact ihc _ _ _ _ _ hc
      | ok p =>
        obtain ⟨conditionTy, conditionSubs⟩ := p
        cases hu : unifyN k conditionTy (Ty.Named "Bool") with
        | none =>
          rw [inferN_if_of_unify_none hc hu] at h
          exact Option.noConfusion h
        | some ru =>
          cases ru with
          | error e0 =>
            rw [inferN_if_of_unify_err hc hu] at h
            simp at h
            rw [← h.1]
            exact unifyN_no_naf _ _ _ _ hu
          | ok subs0 =>
            cases htb : inferN k tb
                (ctx1.substitute (conditionSubs.compose subs0)) with
            | none =>
              rw [inferN_if_of_tb_none hc hu htb] at h
              exact Option.noConfusion h
            | some rtb =>
              obtain ⟨rtbe, ctx2, log2⟩ := rtb
              cases rtbe with
              | error e0 =>
                rw [inferN_if_of_tb_err hc hu htb] at h
                simp at h
                rw [← h.1]
                exact ihtb _ _ _ _ _ htb
              | ok q =>
                obtain ⟨tbTy, newSubs⟩ := q
                cases hfb : inferN k fb (ctx2.substitute newSubs) with
                | none =>
                  rw [inferN_if_of_fb_none hc hu htb hfb] at h
                  exact Option.noConfusion h
                | some rfb =>
                  obtain ⟨rfbe, c3, log3⟩ := rfb
                  cases rfbe with
                  | error e0 =>
                    rw [inferN_if_of_fb_err hc hu htb hfb] at h
                    simp at h
                    rw [← h.1]
                    exact ihfb _ _ _ _ _ hfb
                  | ok q2 =>
                    obtain ⟨fbTy, newSubs2⟩ := q2
                    cases hu2 : unifyN k
                        (tbTy.apply_subs
                          ((subs0.compose newSubs).compose newSubs2))
                        (fbTy.apply_subs
                          ((subs0.compose newSubs).compose newSubs2)) with
                    | none =>
                      rw [inferN_if_of_unify2_none hc hu htb hfb hu2] at h
                      exact Option.noConfusion h
                    | some ru2 =>
                      cases ru2 with
                      | error e0 =>
                        rw [inferN_if_of_unify2_err hc hu htb hfb hu2] at h
                        simp at h
                        rw [← h.1]
                        exact unifyN_no_naf _ _ _ _ hu2
                      | ok ns =>
                        rw [inferN_if_of_unify2_ok hc hu htb hfb hu2] at h
                        simp at h
  | Let name expr body ihe ihb =>
    intro k ctx err c l h
    cases he : inferN k expr ctx with
    | none => rw [inferN_let_of_expr_none he] at h; exact Option.noConfusion h
    | some re =>
      obtain ⟨ree, ctx1, log1⟩ := re
      cases ree with
      | error e0 =>
        rw [inferN_let_of_expr_err he] at h
        simp at h
        rw [← h.1]
        exact ihe _ _ _ _ _ he
      | ok p =>
        obtain ⟨exprTy, subs⟩ := p
        cases hb : inferN k body ((ctx1.substitute subs).with' name exprTy) with
        | none =>
          rw [inferN_let_of_body_none he hb] at h
          exact Option.noConfusion h
        | some rb =>
          obtain ⟨rbe, c2, log2⟩ := rb
          cases rbe with
          | error e0 =>
            rw [inferN_let_of_body_err he hb] at h
            simp at h
            rw [← h.1]
            exact ihb _ _ _ _ _ hb
          | ok q =>
            obtain ⟨bodyTy, newSubs⟩ := q
            rw [inferN_let_of_body_ok he hb] at h
            simp at h

/-- `unifyN` is deterministic across fuels. -/
theorem unifyN_det {k k' : Nat} {x y : Ty} {r r' : Except TyError Subst}
    (h : unifyN k x y = some r) (h' : unifyN k' x y = some r') : r = r' := by
  rcases le_total k k' with hle | hle
  · have h2 := unifyN_mono k k' hle _ _ _ h
    rw [h'] at h2
    injection h2 with h2
    exact h2.symm
  · have h2 := unifyN_mono k' k hle _ _ _ h'
    rw [h] at h2
    injection h2 with h2

/-- Any successful `unifyN` result actually unifies its arguments. -/
theorem unifyN_ok_unifies {k : Nat} {x y : Ty} {s : Subst}
    (h : unifyN k x y = some (Except.ok s)) : Unifies s x y := by
  obtain ⟨k0, r0, h0, hg⟩ := unify_master x y
  rw [unifyN_det h0 h] at hg
  exact hg.2.1

/-- `unifyN` succeeds (at some fuel) exactly when a unifier exists. -/
theorem unifyN_ok_iff_unifiable (x y : Ty) :
    (∃ k s, unifyN k x y = some (Except.ok s)) ↔ ∃ θ, Unifies θ x y := by
  constructor
  · rintro ⟨k, s, h⟩
    exact ⟨s, unifyN_ok_unifies h⟩
  · rintro ⟨θ, hθ⟩
    obtain ⟨k0, r0, h0, hg⟩ := unify_master x y
    cases r0 with
    | ok s => exact ⟨k0, s, h0⟩
    | error e => exact absurd hθ (hg θ)

/-! ### The claims -/

/-- C2: `var_bind(v, T)` is a no-op on `T = Variable(v)`, fails with
`InfiniteType(v)` when `T ≠ Variable(v)` structurally contains `v`, and
otherwise yields exactly the singleton substitution `{v -> T}`. -/
theorem claim_C2 (v : String) (T : Ty) :
    (T = Ty.Variable v → T.var_bind v = Except.ok []) ∧
    (T ≠ Ty.Variable v → T.contains v = true →
      T.var_bind v = Except.error (TyError.InfiniteType v)) ∧
    (T.contains v = false → T.var_bind v = Except.ok [(v, T)]) := by
  unfold Ty.var_bind
  refine ⟨?_, ?_, ?_⟩
  · intro h
    rw [if_pos h]
  · intro h1 h2
    rw [if_neg h1, if_pos h2]
  · intro h3
    have h1 : T ≠ Ty.Variable v := by
      intro hh
      rw [hh] at h3
      simp [Ty.contains] at h3
    rw [if_neg h1, if_neg (by simp [h3])]

/-- Witness for C2: each arm applied at a concrete input. -/
theorem claim_C2_witness :
    (Ty.Variable "a").var_bind "a" = Except.ok [] ∧
    (Ty.Func (Ty.Variable "a") (Ty.Named "B")).var_bind "a"
      = Except.error (TyError.InfiniteType "a") ∧
    (Ty.Named "B").var_bind "a" = Except.ok [("a", Ty.Named "B")] :=
  ⟨(claim_C2 "a" (Ty.Variable "a")).1 rfl,
    (claim_C2 "a" (Ty.Func (Ty.Variable "a") (Ty.Named "B"))).2.1
      (by decide) (by decide),
    (claim_C2 "a" (Ty.Named "B")).2.2 (by decide)⟩

/-- C3: two named types unify (with the empty substitution) exactly when
their tags agree, failing with `TypeMismatch(a, b)` otherwise; a named
type against an arrow fails with `TypeMismatch` in either order. -/
theorem claim_C3 (k : Nat) (a b : String) (f t : Ty) :
    unifyN (k + 1) (Ty.Named a) (Ty.Named b)
      = some (if a = b then Except.ok []
          else Except.error (TyError.TypeMismatch (Ty.Named a) (Ty.Named b))) ∧
    unifyN (k + 1) (Ty.Named a) (Ty.Func f t)
      = some (Except.error (TyError.TypeMismatch (Ty.Named a) (Ty.Func f t))) ∧
    unifyN (k + 1) (Ty.Func f t) (Ty.Named a)
      = some (Except.error (TyError.TypeMismatch (Ty.Func f t) (Ty.Named a))) := by
  refine ⟨?_, rfl, rfl⟩
  by_cases hab : a = b <;> simp [unifyN, hab]

/-- C4: unifying two arrows unifies the from-sides, applies the resulting
substitution to both to-sides, unifies those, and composes the two
substitutions; composition applies the newer substitution to every type
the older one maps to and then inserts the newer bindings, the newer
winning on key collision. -/
theorem claim_C4 (k : Nat) (x1 x2 y1 y2 : Ty) :
    (unifyN (k + 1) (Ty.Func x1 x2) (Ty.Func y1 y2)
      = match unifyN k x1 y1 with
        | none => none
        | some (Except.error e) => some (Except.error e)
        | some (Except.ok s1) =>
          match unifyN k (x2.apply_subs s1) (y2.apply_subs s1) with
          | none => none
          | some (Except.error e) => some (Except.error e)
          | some (Except.ok s2) => some (Except.ok (s1.compose s2))) ∧
    (∀ A B : Subst, NodupKeys B → ∀ w : String,
      Subst.find? (A.compose B) w
        = match Subst.find? B w with
          | some u => some u
          | none => (Subst.find? A w).map (fun ty => ty.apply_subs B)) :=
  ⟨unifyN_func_unfold k x1 x2 y1 y2, fun A _ hB w => find?_compose A hB w⟩

/-- Witness for C4: the composition characterization at a concrete
collision, where the newer binding wins. -/
theorem claim_C4_witness :
    Subst.find? (Subst.compose [("a", Ty.Named "A")] [("a", Ty.Named "B")]) "a"
      = some (Ty.Named "B") := by
  have h := (claim_C4 0 (Ty.Named "N") (Ty.Named "N") (Ty.Named "N")
    (Ty.Named "N")).2 [("a", Ty.Named "A")] [("a", Ty.Named "B")]
    (by simp [NodupKeys]) "a"
  exact h.trans rfl

/-- C7: unification against an arrow forces the function type into arrow
shape (so the `try_into_func` narrowing in `CallExpr::infer` cannot
fail), and consequently no inference error is ever `NotAFunction`. -/
theorem claim_C7 :
    (∀ (k : Nat) (a r funcTy : Ty) (s : Subst),
      unifyN k (Ty.Func a r) funcTy = some (Except.ok s) →
      ∃ u v, funcTy.apply_subs s = Ty.Func u v) ∧
    (∀ (e : Expr) (k : Nat) (ctx : Context) (err : TyError) (c : Context)
        (l : List String),
      inferN k e ctx = some (Except.error err, c, l) →
      err ≠ TyError.NotAFunction) :=
  ⟨unify_func_shape, inferN_no_naf⟩

/-- Witness for C7: both parts at concrete inputs. -/
theorem claim_C7_witness :
    (∃ u v, (Ty.Variable "f").apply_subs
        [("f", Ty.Func (Ty.Named "N") (Ty.Variable "t0"))] = Ty.Func u v) ∧
    TyError.TypeMismatch (Ty.Named "Number") (Ty.Named "Bool")
      ≠ TyError.NotAFunction :=
  ⟨claim_C7.1 3 (Ty.Named "N") (Ty.Variable "t0") (Ty.Variable "f")
      [("f", Ty.Func (Ty.Named "N") (Ty.Variable "t0"))] rfl,
    claim_C7.2 (Expr.If (Expr.Number 1) (Expr.Number 1) (Expr.Number 2)) 9
      (Context.mk [] 0)
      (TyError.TypeMismatch (Ty.Named "Number") (Ty.Named "Bool"))
      (Context.mk [] 0) [] rfl⟩

/-- C8: both the unifier and the inferencer terminate: for every pair of
types and every expression/context there is a fuel at which the fueled
embedding returns an answer. -/
theorem claim_C8 :
    (∀ x y : Ty, ∃ k r, unifyN k x y = some r) ∧
    (∀ (e : Expr) (ctx : Context), ∃ k r, inferN k e ctx = some r) :=
  ⟨fun x y => by
    obtain ⟨k, r, h, _⟩ := unify_master x y
    exact ⟨k, r, h⟩,
    fun e ctx => inferN_total e ctx⟩

/-- C9: unification succeeds on `(x, y)` exactly when it succeeds on
`(y, x)`, and a successful substitution solves both inputs to a common
type. -/
theorem claim_C9 (x y : Ty) :
    ((∃ k s, unifyN k x y = some (Except.ok s)) ↔
      (∃ k s, unifyN k y x = some (Except.ok s))) ∧
    (∀ (k : Nat) (s : Subst), unifyN k x y = some (Except.ok s) →
      x.apply_subs s = y.apply_subs s) := by
  constructor
  · rw [unifyN_ok_iff_unifiable, unifyN_ok_iff_unifiable]
    exact exists_congr fun θ => ⟨Eq.symm, Eq.symm⟩
  · intro k s h
    exact unifyN_ok_unifies h

/-- Witness for C9: both parts at a concrete pair. -/
theorem claim_C9_witness :
    (∃ k s, unifyN k (Ty.Named "N") (Ty.Variable "a")
      = some (Except.ok s)) ∧
    (Ty.Variable "a").apply_subs [("a", Ty.Named "N")]
      = (Ty.Named "N").apply_subs [("a", Ty.Named "N")] :=
  ⟨(claim_C9 (Ty.Variable "a") (Ty.Named "N")).1.mp
      ⟨1, [("a", Ty.Named "N")], rfl⟩,
    (claim_C9 (Ty.Variable "a") (Ty.Named "N")).2 1 [("a", Ty.Named "N")] rfl⟩

/-- C10: applying a substitution resolves a variable exactly one level;
variables introduced by the replacement are not resolved further. -/
theorem claim_C10 (v w n : String) (h : v ≠ w) :
    (Ty.Variable v).apply_subs [(v, Ty.Variable w), (w, Ty.Named n)]
      = Ty.Variable w := by
  simp [Ty.apply_subs, Subst.find?, List.find?]

/-- Witness for C10 at concrete names. -/
theorem claim_C10_witness :
    (Ty.Variable "a").apply_subs [("a", Ty.Variable "b"), ("b", Ty.Named "N")]
      = Ty.Variable "b" :=
  claim_C10 "a" "b" "N" (by decide)

/-- Follows the claim's words for C1 (for comparison with the code): the
claimed `Call` rule unifies `Func(arg_ty, ret)` against `func_ty` *with
the accumulated substitution applied to `func_ty` first*, and narrows
`func_ty` via the accumulated substitution; everything else as in the
code. -/
def inferCallClaim (k : Nat) (func arg : Expr) (ctx : Context) :
    Option (Except TyError (Ty × Subst) × Context × List String) :=
  match inferN k func ctx with
  | none => none
  | some (Except.error e, ctx1, log1) => some (Except.error e, ctx1, log1)
  | some (Except.ok (funcTy, subs), ctx1, log1) =>
    match inferN k arg (ctx1.substitute subs) with
    | none => none
    | some (Except.error e, _, log2) => some (Except.error e, ctx1, log1 ++ log2)
    | some (Except.ok (argTy, newSubs), _, log2) =>
      let nv := ctx1.new_ty_variable
      let mlog := log1 ++ log2 ++ [tyVarName ctx1.count]
      let subsA := subs.compose newSubs
      match unifyN k (Ty.Func argTy nv.1) (funcTy.apply_subs subsA) with
      | none => none
      | some (Except.error e) => some (Except.error e, nv.2, mlog)
      | some (Except.ok newSubs2) =>
        let subsB := subsA.compose newSubs2
        match (funcTy.apply_subs subsB).try_into_func with
        | Except.error e => some (Except.error e, nv.2, mlog)
        | Except.ok (fromTy, toTy) =>
          match unifyN k (fromTy.apply_subs subsB) argTy with
          | none => none
          | some (Except.error e) => some (Except.error e, nv.2, mlog)
          | some (Except.ok s3) =>
            let subsC := subsB.compose s3
            some (Except.ok (toTy.apply_subs subsC, subsC), nv.2, mlog)

/-- C1 counterexample: the code does *not* apply the accumulated
substitution to `func_ty` before the unification.  With `f : Variable a`
in scope and an argument whose inference binds `a` to `Bool`, the code's
`Call` rule unifies against the raw `Variable a` and succeeds, while the
claimed rule unifies against `Named Bool` and fails with `TypeMismatch`. -/
theorem claim_C1_counterexample :
    ¬ ∀ (k : Nat) (func arg : Expr) (ctx : Context),
        inferN k (Expr.Call func arg) ctx = inferCallClaim k func arg ctx := by
  intro hall
  have h := hall 9 (Expr.Variable "f")
    (Expr.If (Expr.Variable "c") (Expr.Number 1) (Expr.Number 2))
    (Context.mk [("f", Ty.Variable "a"), ("c", Ty.Variable "a")] 0)
  rw [show inferN 9 (Expr.Call (Expr.Variable "f")
      (Expr.If (Expr.Variable "c") (Expr.Number 1) (Expr.Number 2)))
      (Context.mk [("f", Ty.Variable "a"), ("c", Ty.Variable "a")] 0)
      = some (Except.ok (Ty.Variable "t0",
          [("a", Ty.Func (Ty.Named "Number") (Ty.Variable "t0"))]),
        Context.mk [("f", Ty.Variable "a"), ("c", Ty.Variable "a")] 1,
        ["t0"]) from rfl] at h
  rw [show inferCallClaim 9 (Expr.Variable "f")
      (Expr.If (Expr.Variable "c") (Expr.Number 1) (Expr.Number 2))
      (Context.mk [("f", Ty.Variable "a"), ("c", Ty.Variable "a")] 0)
      = some (Except.error (TyError.TypeMismatch
          (Ty.Func (Ty.Named "Number") (Ty.Variable "t0")) (Ty.Named "Bool")),
        Context.mk [("f", Ty.Variable "a"), ("c", Ty.Variable "a")] 1,
        ["t0"]) from rfl] at h
  simp at h

/-- C1 amended: `CallExpr::infer` infers `func`, infers `arg` under the
context with the first substitution applied, mints a fresh return
variable, unifies `Func(arg_ty, ret)` against `func_ty` *exactly as
returned by the `func` inference* (no substitution applied), narrows
`func_ty` via the substitution produced by that unification, re-unifies
the narrowed from-side (with the accumulated substitution applied)
against `arg_ty`, and returns the `to` component fully substituted
together with the composed substitution; in particular applying the
identity function to `Number(1)` in the empty context yields
`Named("Number")`. -/
theorem claim_C1_amended :
    (∀ (k : Nat) (func arg : Expr) (ctx : Context),
      inferN k (Expr.Call func arg) ctx
        = match inferN k func ctx with
          | none => none
          | some (Except.error e, ctx1, log1) =>
            some (Except.error e, ctx1, log1)
          | some (Except.ok (funcTy, subs), ctx1, log1) =>
            match inferN k arg (ctx1.substitute subs) with
            | none => none
            | some (Except.error e, _, log2) =>
              some (Except.error e, ctx1, log1 ++ log2)
            | some (Except.ok (argTy, newSubs), _, log2) =>
              match unifyN k
                  (Ty.Func argTy (Ty.Variable (tyVarName ctx1.count)))
                  funcTy with
              | none => none
              | some (Except.error e) =>
                some (Except.error e, Context.mk ctx1.vars (ctx1.count + 1),
                  log1 ++ log2 ++ [tyVarName ctx1.count])
              | some (Except.ok newSubs2) =>
                match (funcTy.apply_subs newSubs2).try_into_func with
                | Except.error e =>
                  some (Except.error e, Context.mk ctx1.vars (ctx1.count + 1),
                    log1 ++ log2 ++ [tyVarName ctx1.count])
                | Except.ok (fromTy, toTy) =>
                  match unifyN k
                      (fromTy.apply_subs
                        ((subs.compose newSubs).compose newSubs2)) argTy with
                  | none => none
                  | some (Except.error e) =>
                    some (Except.error e,
                      Context.mk ctx1.vars (ctx1.count + 1),
                      log1 ++ log2 ++ [tyVarName ctx1.count])
                  | some (Except.ok s3) =>
                    some (Except.ok
                      (toTy.apply_subs
                        (((subs.compose newSubs).compose newSubs2).compose s3),
                        ((subs.compose newSubs).compose newSubs2).compose s3),
                      Context.mk ctx1.vars (ctx1.count + 1),
                      log1 ++ log2 ++ [tyVarName ctx1.count])) ∧
    inferN 9 (Expr.Call (Expr.Func "x" (Expr.Variable "x")) (Expr.Number 1))
        (Context.mk [] 0)
      = some (Except.ok (Ty.Named "Number",
          [("t0", Ty.Named "Number"), ("t1", Ty.Named "Number")]),
          Context.mk [] 2, ["t0", "t1"]) := by
  constructor
  · intro k func arg ctx
    simp only [inferN]
    rfl
  · rfl

/-- C5: `IfExpr::infer` unifies the condition's type against
`Named("Bool")`, then infers both branches under progressively
substituted contexts, unifies the two branch types, and returns the
substituted unified branch type; a condition inferred at a named type
other than `Bool` fails with `TypeMismatch`; in particular a `Number`
condition fails with `TypeMismatch(Number, Bool)`. -/
theorem claim_C5 :
    (∀ (k : Nat) (c tb fb : Expr) (ctx : Context),
      inferN k (Expr.If c tb fb) ctx
        = match inferN k c ctx with
          | none => none
          | some (Except.error e, ctx1, log1) =>
            some (Except.error e, ctx1, log1)
          | some (Except.ok (conditionTy, conditionSubs), ctx1, log1) =>
            match unifyN k conditionTy (Ty.Named "Bool") with
            | none => none
            | some (Except.error e) => some (Except.error e, ctx1, log1)
            | some (Except.ok subs0) =>
              match inferN k tb
                  (ctx1.substitute (conditionSubs.compose subs0)) with
              | none => none
              | some (Except.error e, _, log2) =>
                some (Except.error e, ctx1, log1 ++ log2)
              | some (Except.ok (tbTy, newSubs), ctx2, log2) =>
                match inferN k fb (ctx2.substitute newSubs) with
                | none => none
                | some (Except.error e, _, log3) =>
                  some (Except.error e, ctx1, log1 ++ log2 ++ log3)
                | some (Except.ok (fbTy, newSubs2), _, log3) =>
                  match unifyN k
                      (tbTy.apply_subs
                        ((subs0.compose newSubs).compose newSubs2))
                      (fbTy.apply_subs
                        ((subs0.compose newSubs).compose newSubs2)) with
                  | none => none
                  | some (Except.error e) =>
                    some (Except.error e, ctx1, log1 ++ log2 ++ log3)
                  | some (Except.ok ns) =>
                    some (Except.ok
                      ((tbTy.apply_subs
                          ((subs0.compose newSubs).compose newSubs2)).apply_subs
                            ns,
                        ((subs0.compose newSubs).compose newSubs2).compose ns),
                      ctx1, log1 ++ log2 ++ log3)) ∧
    (∀ (k : Nat) (c tb fb : Expr) (ctx ctx1 : Context) (n : String)
        (s : Subst) (l1 : List String),
      inferN (k + 1) c ctx = some (Except.ok (Ty.Named n, s), ctx1, l1) →
      n ≠ "Bool" →
      inferN (k + 1) (Expr.If c tb fb) ctx
        = some (Except.error
            (TyError.TypeMismatch (Ty.Named n) (Ty.Named "Bool")),
          ctx1, l1)) ∧
    inferN 9 (Expr.If (Expr.Number 1) (Expr.Number 1) (Expr.Number 2))
        (Context.mk [] 0)
      = some (Except.error
          (TyError.TypeMismatch (Ty.Named "Number") (Ty.Named "Bool")),
        Context.mk [] 0, []) := by
  refine ⟨?_, ?_, rfl⟩
  · intro k c tb fb ctx
    simp only [inferN]
  · intro k c tb fb ctx ctx1 n s l1 hc hn
    have hu : unifyN (k + 1) (Ty.Named n) (Ty.Named "Bool")
        = some (Except.error
            (TyError.TypeMismatch (Ty.Named n) (Ty.Named "Bool"))) := by
      simp [unifyN, hn]
    exact inferN_if_of_unify_err hc hu

/-- Witness for C5: the non-`Bool` named condition arm discharged at the
concrete `If(Number 1, Number 1, Number 2)` in the empty context. -/
theorem claim_C5_witness :
    inferN 9 (Expr.If (Expr.Number 1) (Expr.Number 1) (Expr.Number 2))
        (Context.mk [] 0)
      = some (Except.error
          (TyError.TypeMismatch (Ty.Named "Number") (Ty.Named "Bool")),
        Context.mk [] 0, []) :=
  claim_C5.2.1 8 (Expr.Number 1) (Expr.Number 1) (Expr.Number 2)
    (Context.mk [] 0) (Context.mk [] 0) "Number" [] [] rfl (by decide)

/-- C6: in the run inferring `Call(Func("f", Variable "f"),
Func("x", Variable "x"))` from the empty context, the fresh-variable
generator issues the name `"t1"` twice — once for the argument's
parameter (minted on the discarded substituted context copy) and once
for the call's fresh return variable — and the inference of this
well-typed program consequently fails with `InfiniteType("t1")`: the
minted names are not pairwise distinct. -/
theorem claim_C6 :
    inferN 9 (Expr.Call (Expr.Func "f" (Expr.Variable "f"))
        (Expr.Func "x" (Expr.Variable "x"))) (Context.mk [] 0)
      = some (Except.error (TyError.InfiniteType "t1"), Context.mk [] 2,
          ["t0", "t1", "t1"]) ∧
    ¬ (["t0", "t1", "t1"] : List String).Nodup := by
  refine ⟨rfl, ?_⟩
  decide

end TypeTest
